import Mathlib

/-!
A verification development for the d0-oss text-to-SQL service.

The TypeScript modules under scrutiny are shallowly embedded as executable
Lean definitions:

* `src/lib/sql/validate.ts`  — the static syntax scan (`syntaxScan`);
* `src/lib/snowflake.ts`     — the execution-time preflight guard
  (`preflightGuard`), the circuit breaker, and `execWithRetry`;
* `src/lib/sql/macros.ts`    — macro expansion (`expandSqlExpression`,
  `qualifySimpleColumn`) with its cycle stack;
* `src/lib/sql/joins.ts`     — BFS join-path computation (`computeJoinPath`);
* `src/lib/sql/render.ts`    — SQL rendering (`renderSQLFromPlan`,
  `buildPredicate`, `buildMetricExpr`);
* `src/lib/semantic/io.ts`   — entity loading and validation
  (`loadEntityYaml`, `validateJoins`, `validateMetricSources`);
* `lib/execute/repair.ts`    — fuzzy column matching (`bestColumnMatch`,
  `levenshtein`, `normalize`);
* `src/lib/tools/execute.ts` — the query-result cache of
  `ExecuteSQLWithRepair`.

JavaScript `Map`s are modelled as association lists whose `set` prepends a
binding and whose `get` takes the first hit; this is lookup-equivalent to
the insertion-order map the code uses.  JavaScript strings are modelled as
Lean `String`s, with character-level helpers (the built-in `String.trim`
et al. do not reduce in the kernel).  Unbounded recursion (macro expansion)
takes an explicit fuel argument.  `Date.now()` values are supplied as `Nat`
parameters.
-/

namespace D0

/-! ## Character and string helpers (JS semantics) -/

/-- The character class `[A-Za-z0-9_]` used by every identifier regex in
`macros.ts` and the word boundary `\b` of the guard regexes. -/
def isWordChar (c : Char) : Bool :=
  c.isAlphanum || c = '_'

/-- Whitespace recognised by `String.prototype.trim` (ASCII subset; the
SQL strings involved are ASCII). -/
def isWsChar (c : Char) : Bool :=
  c = ' ' || c = '\t' || c = '\n' || c = '\r' || c = '\x0b' || c = '\x0c'

/-- JS `s.trim()`. -/
def jsTrim (s : String) : String :=
  String.mk (((s.data.dropWhile isWsChar).reverse.dropWhile isWsChar).reverse)

/-- JS `s.toLowerCase()` (ASCII). -/
def lowerStr (s : String) : String :=
  String.mk (s.data.map Char.toLower)

/-- Number of occurrences of the character `c` (JS `(s.match(/c/g) || []).length`
for a single-character pattern). -/
def countChar (c : Char) (l : List Char) : Nat :=
  (l.filter (fun x => x = c)).length

/-- Number of non-overlapping occurrences of the two-character pattern `ab`,
scanning left to right (JS global-regex match count for patterns like
`/\/\*/g`). -/
def countPairs (a b : Char) : List Char → Nat
  | x :: y :: rest =>
      if x = a ∧ y = b then 1 + countPairs a b rest
      else countPairs a b (y :: rest)
  | _ => 0

/-- Case-insensitive prefix match: if `w` (lower-cased comparison) is a
prefix of `l`, return the remainder. -/
def ciPrefixRest : List Char → List Char → Option (List Char)
  | [], l => some l
  | _ :: _, [] => none
  | w :: ws, c :: cs => if c.toLower = w.toLower then ciPrefixRest ws cs else none

/-- Does `\b<w>\b` match (case-insensitively) somewhere in the list, where
`prev` is the character just before the current position (`none` at the
start)?  This is JS `/\b<w>\b/i.test(s)` for a word-only pattern `w`. -/
def hasWordCIAux (w : List Char) : Option Char → List Char → Bool
  | _, [] => false
  | prev, c :: cs =>
      (match ciPrefixRest w (c :: cs) with
       | some rest =>
           let startOk := match prev with
             | none => true
             | some p => !(isWordChar p)
           let endOk := match rest with
             | [] => true
             | r :: _ => !(isWordChar r)
           if startOk && endOk then true else hasWordCIAux w (some c) cs
       | none => hasWordCIAux w (some c) cs)

/-- JS `/\b<w>\b/i.test(s)`. -/
def testWordCI (w s : String) : Bool :=
  hasWordCIAux w.data none s.data

/-- JS `Array.prototype.join(sep)`. -/
def joinSep (sep : String) : List String → String
  | [] => ""
  | [x] => x
  | x :: y :: rest => x ++ sep ++ joinSep sep (y :: rest)

/-! ## `src/lib/sql/validate.ts` and the preflight guard of
`src/lib/snowflake.ts` -/

/-- The shared disallowed-verb list (`DISALLOWED` in both `validate.ts` and
`snowflake.ts`): each entry stands for the regex `/\b<verb>\b/i`. -/
def DISALLOWED : List String :=
  ["DROP", "TRUNCATE", "ALTER", "CREATE", "INSERT", "UPDATE", "DELETE",
   "MERGE", "COPY", "PUT", "GET"]

/-- `preflightGuard` from `snowflake.ts`: rejects any semicolon, then the
first disallowed verb (the code throws inside a `for` loop). -/
def preflightGuard (sql : String) : Except String Unit :=
  if countChar ';' sql.data > 0 then
    .error "Multi-statement SQL is not allowed."
  else
    match DISALLOWED.find? (fun w => testWordCI w sql) with
    | some w => .error ("Disallowed token matched: " ++ w)
    | none => .ok ()

/-- The result record of `syntaxScan`. -/
structure ScanResult where
  ok : Bool
  issues : List String
  deriving Repr, DecidableEq

/-- `syntaxScan` from `validate.ts`: at most one trailing semicolon, the
disallowed-verb scan, and balanced block comments. -/
def syntaxScan (sql : String) : ScanResult :=
  let cleaned := jsTrim sql
  let semis := countChar ';' cleaned.data
  let endsSemi := cleaned.data.getLastD ' ' = ';'
  let verbIssues :=
    (DISALLOWED.filter (fun w => testWordCI w sql)).map
      (fun w => "Disallowed token: " ++ w)
  let openComments := countPairs '/' '*' sql.data
  let closeComments := countPairs '*' '/' sql.data
  let issues :=
    (if 1 < semis ∨ (semis = 1 ∧ ¬ endsSemi) then
      ["Multiple statements detected."] else []) ++
    verbIssues ++
    (if openComments = closeComments then []
     else ["Unclosed or unmatched block comment."])
  { ok := issues.isEmpty, issues := issues }

/-- Characters of `jsTrim s` come from `s`. -/
theorem mem_jsTrim {c : Char} {s : String} (h : c ∈ (jsTrim s).data) :
    c ∈ s.data := by
  unfold jsTrim at h
  simp only [String.data] at h
  have h1 := List.mem_reverse.mp h
  have h2 := (List.dropWhile_sublist (l := (s.data.dropWhile isWsChar).reverse)
      (p := isWsChar)).mem h1
  have h3 := List.mem_reverse.mp h2
  exact (List.dropWhile_sublist (l := s.data) (p := isWsChar)).mem h3

theorem countChar_eq_zero {c : Char} {l : List Char} (h : c ∉ l) :
    countChar c l = 0 := by
  unfold countChar
  rw [List.length_eq_zero, List.filter_eq_nil_iff]
  intro a ha
  simp only [decide_eq_true_eq]
  rintro rfl
  exact h ha

/-- Under the hypotheses of the amended C2 claim, the syntax scan's verdict
reduces to the disallowed-verb filter. -/
theorem syntaxScan_ok_eq (s : String) (h1 : ';' ∉ s.data)
    (h2 : countPairs '/' '*' s.data = countPairs '*' '/' s.data) :
    (syntaxScan s).ok =
      (DISALLOWED.filter (fun w => testWordCI w s)).isEmpty := by
  have hc : countChar ';' (jsTrim s).data = 0 :=
    countChar_eq_zero (fun hmem => h1 (mem_jsTrim hmem))
  unfold syntaxScan
  simp only [hc, h2, if_pos rfl]
  have hmulti : ¬ (1 < (0:ℕ) ∨ ((0:ℕ) = 1 ∧
      ¬ (jsTrim s).data.getLastD ' ' = ';')) := by
    rintro (h | ⟨h, _⟩) <;> omega
  rw [if_neg hmulti]
  cases DISALLOWED.filter (fun w => testWordCI w s) <;> simp

/-- C2, corrected: the two policies agree on the disallowed-verb list, and
for SQL without any semicolon and with balanced block comments the
preflight guard accepts exactly when the syntax scan reports ok; the two
checks differ precisely on trailing semicolons and unbalanced comments. -/
theorem preflight_syntaxScan_agree (s : String) (h1 : ';' ∉ s.data)
    (h2 : countPairs '/' '*' s.data = countPairs '*' '/' s.data) :
    (preflightGuard s = .ok ()) ↔ (syntaxScan s).ok = true := by
  have hs : countChar ';' s.data = 0 := countChar_eq_zero h1
  rw [syntaxScan_ok_eq s h1 h2]
  unfold preflightGuard
  rw [hs]
  simp only [gt_iff_lt, lt_self_iff_false, if_false, if_neg (lt_irrefl 0)]
  rcases hfind : DISALLOWED.find? (fun w => testWordCI w s) with _ | w
  · have hfilter : DISALLOWED.filter (fun w => testWordCI w s) = [] := by
      rw [List.filter_eq_nil_iff]
      intro a ha
      have := List.find?_eq_none.mp hfind a ha
      simpa using this
    simp [hfilter]
  · constructor
    · intro h
      exact absurd h (by simp)
    · intro h
      exfalso
      have hsome : (DISALLOWED.find? (fun w => testWordCI w s)).isSome := by
        rw [hfind]; rfl
      obtain ⟨x, hx, hpx⟩ := List.find?_isSome.mp hsome
      have hxmem : x ∈ DISALLOWED.filter (fun w => testWordCI w s) :=
        List.mem_filter.mpr ⟨hx, hpx⟩
      rw [List.isEmpty_iff] at h
      rw [h] at hxmem
      exact absurd hxmem (List.not_mem_nil x)

/-- C2 counterexample: on the single trailing-semicolon statement
the syntax scan reports ok but the preflight guard rejects, so the two
policies are not equivalent as the claim states. -/
theorem preflight_syntaxScan_not_equiv :
    preflightGuard "SELECT 1;" = .error "Multi-statement SQL is not allowed."
      ∧ (syntaxScan "SELECT 1;").ok = true := by
  exact ⟨rfl, rfl⟩

/-- Witness for `preflight_syntaxScan_agree` at the concrete input
"SELECT 1". -/
theorem preflight_syntaxScan_agree_witness :
    (preflightGuard "SELECT 1" = .ok ()) ↔ (syntaxScan "SELECT 1").ok = true :=
  preflight_syntaxScan_agree "SELECT 1" (by decide) (by decide)

/-! ## JS `Map` model

`set` prepends and `get` takes the first hit: lookup-equivalent to the
insertion-ordered map with in-place overwrite that the code uses. -/

/-- JS `map.get(k)` (first binding wins; `set` prepends). -/
def aget {α : Type} (m : List (String × α)) (k : String) : Option α :=
  (m.find? (fun p => p.1 = k)).map (fun p => p.2)

/-- `indexByName` from `io.ts`: `for (const x of arr) m.set(x.name, x)`
(a later entry with the same name shadows an earlier one). -/
def indexByName {α : Type} (nm : α → String) (arr : List α) :
    List (String × α) :=
  arr.foldl (fun m x => (nm x, x) :: m) []

/-! ## Semantic-layer data model (`src/lib/semantic/types.ts`)

Presentation-only fields (`title`, `description`, `primary_key`,
`fill_rate`, `extremes`, `label`, `periods`, `units`) carry no behaviour in
the functions under verification and are elided. -/

inductive Relationship where
  | one_to_one | one_to_many | many_to_one | many_to_many
  deriving DecidableEq, Repr

/-- `join_columns` of a declared join (`from` is a Lean keyword, hence
`colFrom`/`colTo`). -/
structure JoinColumns where
  colFrom : String
  colTo : String
  deriving DecidableEq, Repr

structure JoinRaw where
  target_entity : String
  relationship : Relationship
  join_columns : JoinColumns
  deriving DecidableEq, Repr

structure DimensionRaw where
  name : String
  sql : String
  type : String
  aliases : List String := []
  deriving DecidableEq, Repr

structure TimeDimensionRaw where
  name : String
  sql : String
  deriving DecidableEq, Repr

inductive MeasureType where
  | count | count_distinct | sum | avg | min | max | number
  deriving DecidableEq, Repr

/-- `measure.type.toUpperCase()` as used by `buildMetricExpr`. -/
def MeasureType.upper : MeasureType → String
  | .count => "COUNT"
  | .count_distinct => "COUNT_DISTINCT"
  | .sum => "SUM"
  | .avg => "AVG"
  | .min => "MIN"
  | .max => "MAX"
  | .number => "NUMBER"

structure MeasureRaw where
  name : String
  type : MeasureType
  sql : Option String := none
  deriving DecidableEq, Repr

/-- A structured-filter literal (JS `string | number | boolean`). -/
inductive SqlVal where
  | s (v : String)
  | n (v : Int)
  | b (v : Bool)
  deriving DecidableEq, Repr

structure MetricFilter where
  field : String
  operator : String
  values : List SqlVal
  deriving DecidableEq, Repr

structure MetricSource where
  measure : String
  anchor_date : String
  filters : Option (List MetricFilter) := none
  deriving DecidableEq, Repr

structure MetricRaw where
  name : String
  type : String
  source : Option MetricSource := none
  aliases : List String := []
  deriving DecidableEq, Repr

structure CommonFilterRaw where
  name : String
  sql : String
  deriving DecidableEq, Repr

/-- Parsed entity YAML after the zod schema applied its `[]` defaults.
`aliasesEnt` is the optional entity-level alias map (Object.entries view). -/
structure EntityYamlRaw where
  name : String
  table : String
  grain : String
  aliasesEnt : List (String × List String) := []
  dimensions : List DimensionRaw := []
  time_dimensions : List TimeDimensionRaw := []
  measures : List MeasureRaw := []
  metrics : List MetricRaw := []
  joins : List JoinRaw := []
  common_filters : List CommonFilterRaw := []
  deriving DecidableEq, Repr

/-- Normalized entity with lookup indexes (`EntityJson` in `types.ts`;
the `_`-prefixed index fields lose their underscore here). -/
structure EntityJson where
  name : String
  table : String
  grain : String
  dimensions : List DimensionRaw := []
  time_dimensions : List TimeDimensionRaw := []
  measures : List MeasureRaw := []
  metrics : List MetricRaw := []
  joins : List JoinRaw := []
  common_filters : List CommonFilterRaw := []
  dimIndex : List (String × DimensionRaw) := []
  measureIndex : List (String × MeasureRaw) := []
  metricIndex : List (String × MetricRaw) := []
  aliasIndex : List (String × List String) := []
  reverseAliasIndex : List (String × String) := []
  deriving DecidableEq, Repr

/-! ## `src/lib/sql/macros.ts` -/

/-- The context of `expandSqlExpression`. -/
structure MacroContext where
  currentEntity : String
  aliasByEntity : List (String × String)
  registry : List (String × EntityJson)

/-- Macro-expansion outcomes: the cyclic-expansion throw, fuel exhaustion
(the TS function would still be recursing), and every other thrown
`Error`. -/
inductive MErr where
  | cyclic (expr : String)
  | fuel
  | msg (m : String)
  deriving DecidableEq, Repr

/-- `CUBE_RE = /^\{CUBE\}\.([A-Za-z0-9_]+)$/` as a parser. -/
def parseCubeToken : List Char → Option String
  | '{' :: 'C' :: 'U' :: 'B' :: 'E' :: '}' :: '.' :: rest =>
      if rest ≠ [] ∧ rest.all isWordChar then some (String.mk rest) else none
  | _ => none

/-- `SAME_ENTITY_FIELD_RE = /^\{([A-Za-z0-9_]+)\}$/` as a parser. -/
def parseSameToken : List Char → Option String
  | '{' :: rest =>
      let field := rest.takeWhile isWordChar
      if field ≠ [] ∧ rest.drop field.length = ['}'] then
        some (String.mk field)
      else none
  | _ => none

/-- `OTHER_ENTITY_FIELD_RE = /^\{([A-Za-z0-9_]+)\.([A-Za-z0-9_]+)\}$/` as a
parser. -/
def parseOtherToken : List Char → Option (String × String)
  | '{' :: rest =>
      let ename := rest.takeWhile isWordChar
      if ename = [] then none
      else
        match rest.drop ename.length with
        | '.' :: r2 =>
            let field := r2.takeWhile isWordChar
            if field ≠ [] ∧ r2.drop field.length = ['}'] then
              some (String.mk ename, String.mk field)
            else none
        | _ => none
  | _ => none

/-- `resolveCanonicalField` from `macros.ts`: direct dimension, then time
dimension (converted to a dimension-like record), then the same two via the
reverse alias index. -/
def resolveCanonicalField (ent : EntityJson) (nameOrAlias : String) :
    Option DimensionRaw :=
  match aget ent.dimIndex nameOrAlias with
  | some d => some d
  | none =>
    match ent.time_dimensions.find? (fun td => td.name = nameOrAlias) with
    | some td => some { name := td.name, sql := td.sql, type := "time" }
    | none =>
      match aget ent.reverseAliasIndex nameOrAlias with
      | some canonical =>
        match aget ent.dimIndex canonical with
        | some d => some d
        | none =>
          match ent.time_dimensions.find? (fun td => td.name = canonical) with
          | some td => some { name := td.name, sql := td.sql, type := "time" }
          | none => none
      | none => none

/-- Helper for the global-replace pass over `/\{CUBE\}\.([A-Za-z0-9_]+)/g`:
given the text after a `{`, detect `CUBE}.` followed by a maximal nonempty
word-character run; return the captured field and the remainder after the
match. -/
def cubeTailSplit : List Char → Option (String × List Char)
  | 'C' :: 'U' :: 'B' :: 'E' :: '}' :: '.' :: rest =>
      let field := rest.takeWhile isWordChar
      if field = [] then none
      else some (String.mk field, rest.drop field.length)
  | _ => none

theorem cubeTailSplit_length {cs : List Char} {f : String} {rest : List Char}
    (h : cubeTailSplit cs = some (f, rest)) : rest.length < cs.length + 1 := by
  unfold cubeTailSplit at h
  split at h
  case _ r =>
    by_cases he : r.takeWhile isWordChar = []
    · rw [if_pos he] at h; exact absurd h (by simp)
    · rw [if_neg he] at h
      simp only [Option.some.injEq, Prod.mk.injEq] at h
      obtain ⟨-, h2⟩ := h
      have hlen : rest.length ≤ r.length := by
        rw [← h2, List.length_drop]; omega
      simp only [List.length_cons]
      omega
  case _ => exact absurd h (by simp)

/-- Helper for the pass over `/\{([A-Za-z0-9_]+)\.([A-Za-z0-9_]+)\}/g`:
given the text after a `{`, capture `entity`, `.`, `field`, `}` and the
remainder. -/
def otherTailSplit (cs : List Char) : Option (String × String × List Char) :=
  let ename := cs.takeWhile isWordChar
  if ename = [] then none
  else
    match cs.drop ename.length with
    | '.' :: r2 =>
        let field := r2.takeWhile isWordChar
        if field = [] then none
        else
          match r2.drop field.length with
          | '}' :: rest => some (String.mk ename, String.mk field, rest)
          | _ => none
    | _ => none

theorem otherTailSplit_length {cs : List Char} {e f : String}
    {rest : List Char} (h : otherTailSplit cs = some (e, f, rest)) :
    rest.length < cs.length + 1 := by
  unfold otherTailSplit at h
  by_cases he : cs.takeWhile isWordChar = []
  · rw [if_pos he] at h; exact absurd h (by simp)
  · rw [if_neg he] at h
    split at h
    case _ c r2 hdrop =>
      by_cases hf : r2.takeWhile isWordChar = []
      · rw [if_pos hf] at h; exact absurd h (by simp)
      · rw [if_neg hf] at h
        split at h
        case _ r hdrop2 =>
          simp only [Option.some.injEq, Prod.mk.injEq] at h
          obtain ⟨-, -, rfl⟩ := h
          have h1 : r2.length < cs.length := by
            have hd := congrArg List.length hdrop
            rw [List.length_drop] at hd
            simp only [List.length_cons] at hd
            omega
          have h2 : r.length < r2.length := by
            have hd := congrArg List.length hdrop2
            rw [List.length_drop] at hd
            simp only [List.length_cons] at hd
            omega
          omega
        case _ => exact absurd h (by simp)
    case _ => exact absurd h (by simp)

/-- Helper for the pass over `/\{([A-Za-z0-9_]+)\}/g`: given the text after
a `{`, capture `field`, `}` and the remainder. -/
def sameTailSplit (cs : List Char) : Option (String × List Char) :=
  let field := cs.takeWhile isWordChar
  if field = [] then none
  else
    match cs.drop field.length with
    | '}' :: rest => some (String.mk field, rest)
    | _ => none

theorem sameTailSplit_length {cs : List Char} {f : String}
    {rest : List Char} (h : sameTailSplit cs = some (f, rest)) :
    rest.length < cs.length + 1 := by
  unfold sameTailSplit at h
  by_cases hf : cs.takeWhile isWordChar = []
  · rw [if_pos hf] at h; exact absurd h (by simp)
  · rw [if_neg hf] at h
    split at h
    case _ r hdrop =>
      simp only [Option.some.injEq, Prod.mk.injEq] at h
      obtain ⟨-, rfl⟩ := h
      have hd := congrArg List.length hdrop
      rw [List.length_drop] at hd
      simp only [List.length_cons] at hd
      omega
    case _ => exact absurd h (by simp)

/-- One global-replace pass of `result.replace(/\{CUBE\}\.(\w+)/g, cb)`:
scan left to right, call the (possibly failing) callback on each match,
splice in its result and continue after the match (the replacement text is
not rescanned, per JS `replace` semantics).  The `Nat` bound is structural
fuel; every step consumes at least one character, so the wrapper's
`l.length` never runs out (the `0, _ :: _` case is unreachable). -/
def replCubeF (handler : String → Except MErr String) :
    Nat → List Char → Except MErr (List Char)
  | _, [] => .ok []
  | 0, _ :: _ => .ok []
  | fuel + 1, '{' :: cs =>
      match cubeTailSplit cs with
      | some (f, rest) => do
          let rep ← handler f
          let tail ← replCubeF handler fuel rest
          .ok (rep.data ++ tail)
      | none => do
          let tail ← replCubeF handler fuel cs
          .ok ('{' :: tail)
  | fuel + 1, c :: cs => do
      let tail ← replCubeF handler fuel cs
      .ok (c :: tail)

def replCube (handler : String → Except MErr String) (l : List Char) :
    Except MErr (List Char) :=
  replCubeF handler l.length l

/-- One global-replace pass of `/\{(\w+)\.(\w+)\}/g` (fuelled as above). -/
def replOtherF (handler : String → String → Except MErr String) :
    Nat → List Char → Except MErr (List Char)
  | _, [] => .ok []
  | 0, _ :: _ => .ok []
  | fuel + 1, '{' :: cs =>
      match otherTailSplit cs with
      | some (e, f, rest) => do
          let rep ← handler e f
          let tail ← replOtherF handler fuel rest
          .ok (rep.data ++ tail)
      | none => do
          let tail ← replOtherF handler fuel cs
          .ok ('{' :: tail)
  | fuel + 1, c :: cs => do
      let tail ← replOtherF handler fuel cs
      .ok (c :: tail)

def replOther (handler : String → String → Except MErr String)
    (l : List Char) : Except MErr (List Char) :=
  replOtherF handler l.length l

/-- One global-replace pass of `/\{(\w+)\}/g` (fuelled as above). -/
def replSameF (handler : String → Except MErr String) :
    Nat → List Char → Except MErr (List Char)
  | _, [] => .ok []
  | 0, _ :: _ => .ok []
  | fuel + 1, '{' :: cs =>
      match sameTailSplit cs with
      | some (f, rest) => do
          let rep ← handler f
          let tail ← replSameF handler fuel rest
          .ok (rep.data ++ tail)
      | none => do
          let tail ← replSameF handler fuel cs
          .ok ('{' :: tail)
  | fuel + 1, c :: cs => do
      let tail ← replSameF handler fuel cs
      .ok (c :: tail)

def replSame (handler : String → Except MErr String) (l : List Char) :
    Except MErr (List Char) :=
  replSameF handler l.length l

/-- The type of the recursion callback threaded through the macro-expansion
helpers (a call back into `expandSqlExpression` at the remaining fuel). -/
def ExpandRec : Type :=
  MacroContext → List String → String → Except MErr String

/-- Shared body of the exact `{CUBE}.field` / `{field}` branches and the
`{CUBE}.field` replace callback (the three code blocks are identical in
the source). -/
def expandCurrentFieldW (recur : ExpandRec) (ctx : MacroContext)
    (stack : List String) (field : String) : Except MErr String :=
  match aget ctx.registry ctx.currentEntity with
  | none => .error (.msg ("Unknown current entity \"" ++ ctx.currentEntity
      ++ "\" in macro expansion."))
  | some ent =>
    match resolveCanonicalField ent field with
    | none => .error (.msg ("Field \"" ++ field ++ "\" not found in entity \""
        ++ ent.name ++ "\"."))
    | some dim =>
      match parseCubeToken dim.sql.data with
      | some col =>
        match aget ctx.aliasByEntity ctx.currentEntity with
        | none => .error (.msg ("Missing alias for current entity \""
            ++ ctx.currentEntity ++ "\"."))
        | some al => .ok (al ++ "." ++ col)
      | none =>
        recur ctx (stack ++ [ent.name ++ "." ++ field]) dim.sql

/-- The exact `{entity.field}` branch. -/
def expandOtherExactW (recur : ExpandRec) (ctx : MacroContext)
    (stack : List String) (ename field : String) : Except MErr String :=
  match aget ctx.registry ename with
  | none => .error (.msg ("Referenced entity \"" ++ ename
      ++ "\" is not loaded in the current plan."))
  | some ent =>
    match resolveCanonicalField ent field with
    | none => .error (.msg ("Field \"" ++ field ++ "\" not found in entity \""
        ++ ename ++ "\"."))
    | some dim =>
      match aget ctx.aliasByEntity ename with
      | none => .error (.msg ("Entity \"" ++ ename
          ++ "\" has no alias; ensure it is in the join path."))
      | some al =>
        match parseCubeToken dim.sql.data with
        | some col => .ok (al ++ "." ++ col)
        | none =>
          recur { ctx with currentEntity := ename }
            (stack ++ [ename ++ "." ++ field]) dim.sql

/-- The `{entity.field}` replace callback (same flow as the exact branch,
different error strings and the alias is looked up before the simple-column
check, as in the source). -/
def expandOtherReplW (recur : ExpandRec) (ctx : MacroContext)
    (stack : List String) (ename field : String) : Except MErr String :=
  match aget ctx.registry ename with
  | none => .error (.msg ("Referenced entity \"" ++ ename
      ++ "\" not loaded."))
  | some ent =>
    match resolveCanonicalField ent field with
    | none => .error (.msg ("Field \"" ++ field ++ "\" not found in \""
        ++ ename ++ "\"."))
    | some dim =>
      match aget ctx.aliasByEntity ename with
      | none => .error (.msg ("Missing alias for entity \"" ++ ename ++ "\"."))
      | some al =>
        match parseCubeToken dim.sql.data with
        | some col => .ok (al ++ "." ++ col)
        | none =>
          recur { ctx with currentEntity := ename }
            (stack ++ [ename ++ "." ++ field]) dim.sql

/-- The `{field}` replace callback, which additionally treats a bare
`{CUBE}` as the current entity's alias. -/
def expandSameReplW (recur : ExpandRec) (ctx : MacroContext)
    (stack : List String) (field : String) : Except MErr String :=
  match aget ctx.registry ctx.currentEntity with
  | none => .error (.msg ("Unknown current entity \"" ++ ctx.currentEntity
      ++ "\" in macro expansion."))
  | some ent =>
    match resolveCanonicalField ent field with
    | none =>
      if field = "CUBE" then
        match aget ctx.aliasByEntity ctx.currentEntity with
        | none => .error (.msg ("Missing alias for current entity \""
            ++ ctx.currentEntity ++ "\"."))
        | some al => .ok al
      else
        .error (.msg ("Field \"" ++ field ++ "\" not found in entity \""
            ++ ent.name ++ "\"."))
    | some dim =>
      match parseCubeToken dim.sql.data with
      | some col =>
        match aget ctx.aliasByEntity ctx.currentEntity with
        | none => .error (.msg ("Missing alias for current entity \""
            ++ ctx.currentEntity ++ "\"."))
        | some al => .ok (al ++ "." ++ col)
      | none =>
        recur ctx (stack ++ [ent.name ++ "." ++ field]) dim.sql

/-- `expandSqlExpression` from `macros.ts`, with explicit fuel (the TS
function has no termination guarantee of its own; fuel exhaustion is
reported as `MErr.fuel`).  `stack` is the cycle stack; note that the entry
check compares the raw expression string with the stack, while the
recursive calls push `entity.field` keys. -/
def expandSqlExpression : Nat → MacroContext → List String → String →
    Except MErr String
  | 0, _, _, _ => .error .fuel
  | fuel + 1, ctx, stack, expr =>
    let recur : ExpandRec := fun c st e => expandSqlExpression fuel c st e
    if expr ∈ stack then .error (.cyclic expr)
    else
      match parseCubeToken expr.data with
      | some field => expandCurrentFieldW recur ctx stack field
      | none =>
        match parseSameToken expr.data with
        | some field => expandCurrentFieldW recur ctx stack field
        | none =>
          match parseOtherToken expr.data with
          | some (ename, field) => expandOtherExactW recur ctx stack ename field
          | none => do
              let r1 ← replCube
                (fun f => expandCurrentFieldW recur ctx stack f) expr.data
              let r2 ← replOther
                (fun e f => expandOtherReplW recur ctx stack e f) r1
              let r3 ← replSame
                (fun f => expandSameReplW recur ctx stack f) r2
              .ok (String.mk r3)

example :
    expandSqlExpression 5
      { currentEntity := "e",
        aliasByEntity := [("e", "t0")],
        registry := [("e",
          { name := "e", table := "db.s.e", grain := "row",
            dimensions := [{ name := "a", sql := "{CUBE}.A", type := "string" }],
            dimIndex := indexByName DimensionRaw.name
              [{ name := "a", sql := "{CUBE}.A", type := "string" }] })] }
      [] "{a}" = .ok "t0.A" := rfl

example :
    expandSqlExpression 5
      { currentEntity := "e",
        aliasByEntity := [("e", "t0")],
        registry := [("e",
          { name := "e", table := "db.s.e", grain := "row",
            dimensions := [{ name := "a", sql := "{CUBE}.A", type := "string" }],
            dimIndex := indexByName DimensionRaw.name
              [{ name := "a", sql := "{CUBE}.A", type := "string" }] })] }
      [] "x + {a} + {CUBE}.a" = .ok "x + t0.A + t0.A" := rfl

/-! ### C1: cycle detection in `expandSqlExpression`

The registry below contains a genuine dimension-SQL cycle: dimension `a`
is defined as `{b}` and dimension `b` as `{a}`.  The stack pushed by the
code holds `entity.field` keys (`"e.a"`, `"e.b"`), but the entry check
compares the raw expression (`"{a}"`, `"{b}"`) against that stack, so the
cycle is never detected and the recursion only stops when fuel runs out
(in TypeScript: a stack overflow, not the cyclic-expansion error). -/

def cycDimA : DimensionRaw := { name := "a", sql := "{b}", type := "string" }

def cycDimB : DimensionRaw := { name := "b", sql := "{a}", type := "string" }

def cycEntity : EntityJson :=
  { name := "e", table := "db.s.e", grain := "row",
    dimensions := [cycDimA, cycDimB],
    dimIndex := indexByName DimensionRaw.name [cycDimA, cycDimB] }

def cycCtx : MacroContext :=
  { currentEntity := "e", aliasByEntity := [("e", "t0")],
    registry := [("e", cycEntity)] }

theorem cyc_step_a (n : Nat) (stack : List String) (ha : "{a}" ∉ stack) :
    expandSqlExpression (n + 1) cycCtx stack "{a}" =
      expandSqlExpression n cycCtx (stack ++ ["e.a"]) "{b}" := by
  simp only [expandSqlExpression]
  rw [if_neg ha]
  rfl

theorem cyc_step_b (n : Nat) (stack : List String) (hb : "{b}" ∉ stack) :
    expandSqlExpression (n + 1) cycCtx stack "{b}" =
      expandSqlExpression n cycCtx (stack ++ ["e.b"]) "{a}" := by
  simp only [expandSqlExpression]
  rw [if_neg hb]
  rfl

theorem notin_append_singleton {x y : String} {stack : List String}
    (hx : x ∉ stack) (hxy : x ≠ y) : x ∉ stack ++ [y] := by
  intro h
  rcases List.mem_append.mp h with h | h
  · exact hx h
  · rw [List.mem_singleton] at h
    exact hxy h

theorem cyc_no_detection : ∀ (n : Nat) (stack : List String),
    "{a}" ∉ stack → "{b}" ∉ stack →
    expandSqlExpression n cycCtx stack "{a}" = .error .fuel ∧
    expandSqlExpression n cycCtx stack "{b}" = .error .fuel := by
  intro n
  induction n with
  | zero => intro stack _ _; exact ⟨rfl, rfl⟩
  | succ n ih =>
    intro stack ha hb
    constructor
    · rw [cyc_step_a n stack ha]
      exact (ih (stack ++ ["e.a"])
        (notin_append_singleton ha (by decide))
        (notin_append_singleton hb (by decide))).2
    · rw [cyc_step_b n stack hb]
      exact (ih (stack ++ ["e.b"])
        (notin_append_singleton ha (by decide))
        (notin_append_singleton hb (by decide))).1

/-- C1: on the cyclically defined dimensions `a = {b}`, `b = {a}` the
expansion path revisits the same `entity.field` keys forever, yet
`expandSqlExpression` never fails with the cyclic-expansion error: for
every fuel it is still recursing (`MErr.fuel`), because the membership
check compares raw expression strings against a stack of `entity.field`
keys.  In TypeScript this recursion only ends with a stack overflow. -/
theorem expandSqlExpression_misses_cycle (fuel : Nat) :
    expandSqlExpression fuel cycCtx [] "{a}" = .error .fuel ∧
    ∀ e : String,
      expandSqlExpression fuel cycCtx [] "{a}" ≠ .error (.cyclic e) := by
  have h := (cyc_no_detection fuel [] (by simp) (by simp)).1
  refine ⟨h, ?_⟩
  intro e hc
  rw [h] at hc
  exact absurd (Except.error.inj hc) (by simp)

/-- `qualifySimpleColumn` from `macros.ts`. -/
def qualifySimpleColumn (expr : String) (entityName : String)
    (ctx : MacroContext) : Except MErr String :=
  match parseCubeToken expr.data with
  | some col =>
    match aget ctx.aliasByEntity entityName with
    | none => .error (.msg ("Missing alias for entity \""
        ++ entityName ++ "\"."))
    | some al => .ok (al ++ ".\"" ++ col ++ "\"")
  | none =>
    match parseOtherToken expr.data with
    | some (e, col) =>
      match aget ctx.aliasByEntity e with
      | none => .error (.msg ("Missing alias for entity \"" ++ e ++ "\"."))
      | some al => .ok (al ++ ".\"" ++ col ++ "\"")
    | none => .ok expr

/-! ## `lib/execute/repair.ts`: fuzzy column matching (C4) -/

/-- `normalize` from `repair.ts`: strip double quotes and backticks, trim,
lower-case. -/
def normalize (s : String) : String :=
  lowerStr (jsTrim (String.mk
    (s.data.filter (fun c => !(c = '"' || c = '\x60')))))

/-- One DP row step of the `levenshtein` table: given the previous row
(sliding window `p0 :: p1 :: rest`) and the value to the left, produce the
rest of the current row. -/
def levRow (ca : Char) : List Char → List Nat → Nat → List Nat
  | [], _, _ => []
  | _ :: _, [], _ => []
  | _ :: _, [_], _ => []
  | cb :: bs, p0 :: p1 :: rest, left =>
      let cost : Nat := if ca = cb then 0 else 1
      let c := Nat.min (p1 + 1) (Nat.min (left + 1) (p0 + cost))
      c :: levRow ca bs (p1 :: rest) c

/-- `levenshtein` from `repair.ts` (the same O(m·n) dynamic program,
row by row). -/
def levenshtein (a b : String) : Nat :=
  let row0 := List.range (b.data.length + 1)
  let last := a.data.foldl
    (fun (st : Nat × List Nat) ca =>
      let i := st.1 + 1
      (i, i :: levRow ca b.data st.2 i))
    ((0 : Nat), row0)
  last.2.getLastD 0

example : levenshtein "kitten" "sitting" = 3 := rfl
example : levenshtein "abc" "abc" = 0 := rfl
example : levenshtein "" "abc" = 3 := rfl

/-- The candidate stream of `bestColumnMatch`, in iteration order:
for each registry entity, each dimension name and each of its aliases,
then each time-dimension name.  Each item is
`(entity, canonical field, candidate text)`. -/
def candList (registry : List (String × EntityJson)) :
    List (String × String × String) :=
  registry.bind (fun p =>
    p.2.dimensions.bind (fun d =>
      (d.name :: d.aliases).map (fun c => (p.1, d.name, c)))
    ++ p.2.time_dimensions.map (fun td => (p.1, td.name, td.name)))

/-- The candidate scores in iteration order. -/
def candScores (needle : String) (cands : List (String × String × String)) :
    List Nat :=
  cands.map (fun c => levenshtein needle (normalize c.2.2))

/-- The best-candidate loop of `bestColumnMatch` (strict `<` keeps the
first minimum, as in the source). -/
def bestFold (needle : String) :
    List (String × String × String) → Option (String × String × Nat) →
      Option (String × String × Nat)
  | [], best => best
  | c :: cs, best =>
      let score := levenshtein needle (normalize c.2.2)
      match best with
      | none => bestFold needle cs (some (c.1, c.2.1, score))
      | some b =>
          if score < b.2.2 then bestFold needle cs (some (c.1, c.2.1, score))
          else bestFold needle cs (some b)

/-- `Math.ceil(len * 0.3)` (the double product is integral exactly when
`3·len` is divisible by 10 and rounds to the same ceiling on the string
lengths that occur). -/
def ceil30 (len : Nat) : Nat := (3 * len + 9) / 10

/-- `bestColumnMatch` from `repair.ts`: fuzzy match across dimensions,
their aliases, and time dimensions; accept only if the best score is
at most 3 or at most `ceil(0.3·len)`. -/
def bestColumnMatch (target : String)
    (registry : List (String × EntityJson)) : Option (String × String) :=
  let needle := normalize target
  match bestFold needle (candList registry) none with
  | some b =>
      if b.2.2 ≤ 3 ∨ b.2.2 ≤ ceil30 needle.data.length then some (b.1, b.2.1)
      else none
  | none => none

/-- The minimal candidate score (0 when there are no candidates). -/
def minScore (needle : String)
    (cands : List (String × String × String)) : Nat :=
  match candScores needle cands with
  | [] => 0
  | s :: rest => rest.foldl min s

theorem bestFold_acc (needle : String) :
    ∀ (cands : List (String × String × String)) (b0 : String × String × Nat),
      ∃ b, bestFold needle cands (some b0) = some b ∧
        b.2.2 = (candScores needle cands).foldl min b0.2.2 := by
  intro cands
  induction cands with
  | nil => intro b0; exact ⟨b0, rfl, rfl⟩
  | cons c cs ih =>
    intro b0
    by_cases h : levenshtein needle (normalize c.2.2) < b0.2.2
    · obtain ⟨b, hb, hv⟩ := ih (c.1, c.2.1, levenshtein needle (normalize c.2.2))
      refine ⟨b, ?_, ?_⟩
      · simp only [bestFold]
        rw [if_pos h]
        exact hb
      · rw [hv]
        simp only [candScores, List.map_cons, List.foldl_cons]
        congr 1
        omega
    · obtain ⟨b, hb, hv⟩ := ih b0
      refine ⟨b, ?_, ?_⟩
      · simp only [bestFold]
        rw [if_neg h]
        exact hb
      · rw [hv]
        simp only [candScores, List.map_cons, List.foldl_cons]
        congr 1
        omega

theorem bestFold_start (needle : String) (c : String × String × String)
    (cs : List (String × String × String)) :
    ∃ b, bestFold needle (c :: cs) none = some b ∧
      b.2.2 = minScore needle (c :: cs) := by
  obtain ⟨b, hb, hv⟩ :=
    bestFold_acc needle cs (c.1, c.2.1, levenshtein needle (normalize c.2.2))
  exact ⟨b, hb, hv⟩

/-- C4, amended: a fuzzy match is accepted iff there is at least one
candidate and the minimal Levenshtein distance over all candidates is at
most `max 3 ⌈0.3·len⌉` (the code's `score ≤ 3 || score ≤ ceil(0.3·len)`),
not `min 3 ⌈0.3·len⌉` as the claim states. -/
theorem bestColumnMatch_max_threshold (target : String)
    (registry : List (String × EntityJson)) :
    (bestColumnMatch target registry).isSome = true ↔
      (candList registry ≠ [] ∧
        minScore (normalize target) (candList registry) ≤
          max 3 (ceil30 (normalize target).data.length)) := by
  unfold bestColumnMatch
  cases hc : candList registry with
  | nil =>
    simp only [hc, bestFold]
    simp
  | cons c cs =>
    obtain ⟨b, hb, hv⟩ := bestFold_start (normalize target) c cs
    simp only [hc, hb]
    by_cases hcond : b.2.2 ≤ 3 ∨ b.2.2 ≤ ceil30 (normalize target).data.length
    · rw [if_pos hcond]
      simp only [Option.isSome_some, true_iff]
      refine ⟨by simp, ?_⟩
      rw [← hv]
      exact le_max_iff.mpr hcond
    · rw [if_neg hcond]
      simp only [Option.isSome_none, Bool.false_eq_true, false_iff]
      rintro ⟨-, hle⟩
      rw [← hv] at hle
      exact hcond (le_max_iff.mp hle)

/-- The registry of the C4 counterexample: a single entity with a single
dimension whose name is at distance 4 from the probed identifier of
length 19. -/
def cex4Registry : List (String × EntityJson) :=
  [("e",
    { name := "e", table := "db.s.e", grain := "row",
      dimensions :=
        [{ name := "aaaaaaaaaaaaaaabbbb", sql := "{CUBE}.X",
           type := "string" }] })]

set_option maxRecDepth 40000 in
/-- C4 counterexample: for the identifier of length 19 the best distance
is 4; `min(3, ⌈0.3·19⌉) = 3 < 4`, so the claim demands rejection, yet the
code accepts the match (its test is `≤ 3 or ≤ ⌈0.3·len⌉`, i.e. a `max`). -/
theorem bestColumnMatch_min_bound_false :
    bestColumnMatch "aaaaaaaaaaaaaaaaaaa" cex4Registry =
        some ("e", "aaaaaaaaaaaaaaabbbb") ∧
      levenshtein (normalize "aaaaaaaaaaaaaaaaaaa")
        (normalize "aaaaaaaaaaaaaaabbbb") = 4 ∧
      min 3 (ceil30 (normalize "aaaaaaaaaaaaaaaaaaa").data.length) = 3 := by
  refine ⟨by decide, by decide, by decide⟩

/-! ## `src/lib/snowflake.ts`: circuit breaker and `execWithRetry` (C3)

Connection acquisition, the preflight, query tags and the statement run
are abstracted into one oracle `outcomes : Nat → Bool` giving each
attempt's success; `times : Nat → Nat` supplies `Date.now()` for each
attempt and `t0` the value read at entry.  The event trace records, for
every attempt, the pool acquisition and the statement run together with
whether the breaker was open at that moment. -/

structure Breaker where
  consecutiveFailures : Nat
  trippedUntil : Nat
  deriving DecidableEq, Repr

/-- `breaker.isOpen(now)`. -/
def Breaker.isOpen (b : Breaker) (now : Nat) : Bool :=
  now < b.trippedUntil

/-- `breaker.recordSuccess()`. -/
def Breaker.recordSuccess (_ : Breaker) : Breaker :=
  { consecutiveFailures := 0, trippedUntil := 0 }

/-- `breaker.recordFailure()` (`now` is the `Date.now()` inside it). -/
def Breaker.recordFailure (b : Breaker) (now : Nat) : Breaker :=
  let c := b.consecutiveFailures + 1
  { consecutiveFailures := c,
    trippedUntil := if 3 ≤ c then now + 60000 else b.trippedUntil }

inductive ExecEvent where
  | acquired (breakerOpen : Bool)
  | ranStatement (breakerOpen : Bool)
  deriving DecidableEq, Repr

/-- The retry loop of `execWithRetry` (attempt index `k`, `remaining`
attempts left).  On failure the breaker records the failure and the loop
continues; the breaker is not re-checked inside the loop. -/
def execLoop (times : Nat → Nat) (outcomes : Nat → Bool) :
    Nat → Nat → Breaker → List ExecEvent →
      Except String Unit × Breaker × List ExecEvent
  | 0, _, b, evs => (.error "Unknown execution failure.", b, evs)
  | remaining + 1, k, b, evs =>
      let now := times k
      let evs := evs ++ [.acquired (b.isOpen now), .ranStatement (b.isOpen now)]
      if outcomes k then (.ok (), b.recordSuccess, evs)
      else execLoop times outcomes remaining (k + 1) (b.recordFailure now) evs

/-- `execWithRetry` from `snowflake.ts`, restricted to its breaker and
retry behaviour: reject immediately when the breaker is open at entry;
otherwise run `max(1, min(attempts ?? 3, 5))` attempts. -/
def execWithRetry (b0 : Breaker) (t0 : Nat) (times : Nat → Nat)
    (outcomes : Nat → Bool) (attemptsOpt : Option Nat) :
    Except String Unit × Breaker × List ExecEvent :=
  if b0.isOpen t0 then
    (.error "Circuit breaker open. Temporarily refusing execution.", b0, [])
  else
    execLoop times outcomes (max 1 (min (attemptsOpt.getD 3) 5)) 1 b0 []

theorem execLoop_ok_resets (times : Nat → Nat) (outcomes : Nat → Bool) :
    ∀ (n k : Nat) (b : Breaker) (evs : List ExecEvent) (bf : Breaker)
      (evs2 : List ExecEvent),
      execLoop times outcomes n k b evs = (.ok (), bf, evs2) →
      bf = { consecutiveFailures := 0, trippedUntil := 0 } := by
  intro n
  induction n with
  | zero =>
    intro k b evs bf evs2 h
    simp [execLoop] at h
  | succ n ih =>
    intro k b evs bf evs2 h
    simp only [execLoop] at h
    by_cases ho : outcomes k = true
    · rw [if_pos ho] at h
      have := congrArg (fun p => p.2.1) h
      simpa [Breaker.recordSuccess] using this.symm
    · rw [if_neg ho] at h
      exact ih (k + 1) _ _ bf evs2 h

/-- C3, amended: (1) when the breaker is open at the start of an execution
request the request is rejected with no connection acquired and no
statement run; (2) each failure increments the consecutive-failure count
and the third (or later) consecutive failure opens the breaker for 60
seconds from that moment; (3) a request that returns success leaves the
counter (and the trip time) reset to zero.  The claim's stronger reading —
that no statement ever runs while the breaker is open — is false, because
the breaker is only consulted at entry, not between retries (see the
counterexample). -/
theorem execWithRetry_breaker_behaviour (b0 : Breaker) (t0 : Nat)
    (times : Nat → Nat) (outcomes : Nat → Bool) (attemptsOpt : Option Nat) :
    (b0.isOpen t0 = true →
      execWithRetry b0 t0 times outcomes attemptsOpt =
        (.error "Circuit breaker open. Temporarily refusing execution.",
          b0, [])) ∧
    (∀ (b : Breaker) (now : Nat),
      (b.recordFailure now).consecutiveFailures = b.consecutiveFailures + 1 ∧
      (3 ≤ b.consecutiveFailures + 1 →
        (b.recordFailure now).trippedUntil = now + 60000)) ∧
    (∀ (bf : Breaker) (evs : List ExecEvent),
      execWithRetry b0 t0 times outcomes attemptsOpt = (.ok (), bf, evs) →
      bf = { consecutiveFailures := 0, trippedUntil := 0 }) := by
  refine ⟨?_, ?_, ?_⟩
  · intro hopen
    unfold execWithRetry
    rw [if_pos hopen]
  · intro b now
    refine ⟨rfl, ?_⟩
    intro h3
    simp only [Breaker.recordFailure]
    rw [if_pos h3]
  · intro bf evs h
    unfold execWithRetry at h
    by_cases hopen : b0.isOpen t0 = true
    · rw [if_pos hopen] at h
      exact absurd (congrArg Prod.fst h) (by simp)
    · rw [if_neg hopen] at h
      exact execLoop_ok_resets times outcomes _ 1 b0 [] bf evs h

/-- Witness for `execWithRetry_breaker_behaviour`: a breaker tripped until
t=100 rejects a request arriving at t=50 without acquiring a connection,
and a succeeding request resets the counter. -/
theorem execWithRetry_breaker_behaviour_witness :
    execWithRetry { consecutiveFailures := 3, trippedUntil := 100 } 50
        (fun _ => 0) (fun _ => true) none =
      (.error "Circuit breaker open. Temporarily refusing execution.",
        { consecutiveFailures := 3, trippedUntil := 100 }, []) ∧
    ∀ (bf : Breaker) (evs : List ExecEvent),
      execWithRetry { consecutiveFailures := 2, trippedUntil := 0 } 0
          (fun _ => 7) (fun _ => true) none = (.ok (), bf, evs) →
      bf = { consecutiveFailures := 0, trippedUntil := 0 } :=
  ⟨(execWithRetry_breaker_behaviour
      { consecutiveFailures := 3, trippedUntil := 100 } 50
      (fun _ => 0) (fun _ => true) none).1 (by decide),
   (execWithRetry_breaker_behaviour
      { consecutiveFailures := 2, trippedUntil := 0 } 0
      (fun _ => 7) (fun _ => true) none).2.2⟩

/-- C3 counterexample to "no statement runs against the warehouse while
open": starting from two consecutive failures, the first attempt's failure
trips the breaker, yet the second retry of the same request acquires a
connection and runs a statement while the breaker is open. -/
theorem execWithRetry_statement_while_open :
    ExecEvent.ranStatement true ∈
      (execWithRetry { consecutiveFailures := 2, trippedUntil := 0 } 0
        (fun _ => 0) (fun _ => false) none).2.2 := by decide

/-! ## `src/lib/tools/execute.ts`: the query-result cache of
`ExecuteSQLWithRepair` (C5)

Rows are record-shaped payloads; the Snowflake driver, repair
classification and repair construction are oracles (`RepairOracle`).
`now` is the `Date.now()` of one tool invocation. -/

/-- A result row (`Record<string, any>`). -/
def Row : Type := List (String × SqlVal)

instance : DecidableEq Row := by unfold Row; infer_instance

structure ColumnMeta where
  name : String
  type : String
  deriving DecidableEq, Repr

/-- The value of `execWithRetry` consumed by the tool
(`ExecResult & { truncated }`). -/
structure ExecSuccess where
  rows : List Row
  columns : List ColumnMeta
  lastQueryId : String
  truncated : Bool
  deriving DecidableEq

/-- A `queryCache` entry. -/
structure CacheEntry where
  rows : List Row
  columns : List ColumnMeta
  lastQueryId : String
  cachedAt : Nat
  deriving DecidableEq

/-- The JS object returned by the tool, field-presence included: a `none`
means the property is absent from the object, and for `repairReason`
`some none` is a present `null`.  Structural equality of the JS objects is
equality of this record. -/
structure RepairToolResult where
  rows : Option (List Row) := none
  columns : Option (List ColumnMeta) := none
  lastQueryId : Option String := none
  truncated : Option Bool := none
  attemptedSql : Option String := none
  repaired : Option Bool := none
  repairReason : Option (Option String) := none
  fromCache : Option Bool := none
  ok : Option Bool := none
  error : Option String := none
  deriving DecidableEq

def CACHE_MAX_AGE_MS : Nat := 300000

def CACHE_MAX_SIZE : Nat := 100

/-- JS `Map.set` preserving iteration order: update in place if the key
exists, else append. -/
def jsSet {α : Type} (m : List (String × α)) (k : String) (v : α) :
    List (String × α) :=
  if (m.find? (fun p => p.1 = k)).isSome then
    m.map (fun p => if p.1 = k then (k, v) else p)
  else m ++ [(k, v)]

/-- Stable insertion by `cachedAt` (ascending), modelling the
`sort((a, b) => a.cachedAt - b.cachedAt)`. -/
def insertByTime (x : String × CacheEntry) :
    List (String × CacheEntry) → List (String × CacheEntry)
  | [] => [x]
  | y :: ys =>
      if y.2.cachedAt ≤ x.2.cachedAt then y :: insertByTime x ys
      else x :: y :: ys

def sortByTime : List (String × CacheEntry) → List (String × CacheEntry)
  | [] => []
  | x :: xs => insertByTime x (sortByTime xs)

/-- `cleanExpiredCache` from `execute.ts`: drop entries older than five
minutes, then evict oldest-first down to the size cap. -/
def cleanExpiredCache (now : Nat) (cache : List (String × CacheEntry)) :
    List (String × CacheEntry) :=
  let cache := cache.filter (fun p => !(now - p.2.cachedAt > CACHE_MAX_AGE_MS))
  if cache.length > CACHE_MAX_SIZE then
    let toRemove :=
      ((sortByTime cache).take (cache.length - CACHE_MAX_SIZE)).map
        (fun p => p.1)
    cache.filter (fun p => !(toRemove.contains p.1))
  else cache

/-- The oracles of one tool invocation: the guarded executor
(`tryExec`, deterministic per SQL text within the invocation) and
`attemptRepair` (from SQL and error message to an optional
`(fixedSql, reason)`). -/
structure RepairOracle where
  exec : String → Except String ExecSuccess
  repair : String → String → Option (String × String)

/-- A successful execution's return object
(`{ ...res, attemptedSql, repaired, repairReason }`). -/
def successResult (res : ExecSuccess) (attempted : String) (repaired : Bool)
    (reason : Option String) : RepairToolResult :=
  { rows := some res.rows, columns := some res.columns,
    lastQueryId := some res.lastQueryId, truncated := some res.truncated,
    attemptedSql := some attempted, repaired := some repaired,
    repairReason := some reason }

/-- The execution-and-repair part of the tool body (attempt #0 plus up to
two repairs), with every successful result cached under the original SQL
at time `now`. -/
def execFlow (o : RepairOracle) (now : Nat)
    (cache : List (String × CacheEntry)) (sql : String) :
    RepairToolResult × List (String × CacheEntry) :=
  match o.exec sql with
  | .ok res =>
      (successResult res sql false none,
        jsSet cache sql ⟨res.rows, res.columns, res.lastQueryId, now⟩)
  | .error e0 =>
    match o.repair sql e0 with
    | none =>
        ({ ok := some false, error := some e0, attemptedSql := some sql,
           repaired := some false }, cache)
    | some (sql1, reason1) =>
      match o.exec sql1 with
      | .ok res1 =>
          (successResult res1 sql1 true (some reason1),
            jsSet cache sql ⟨res1.rows, res1.columns, res1.lastQueryId, now⟩)
      | .error e1 =>
        match o.repair sql1 e1 with
        | none =>
            ({ ok := some false, error := some e1, attemptedSql := some sql1,
               repaired := some true, repairReason := some (some reason1) },
              cache)
        | some (sql2, reason2) =>
          match o.exec sql2 with
          | .ok res2 =>
              (successResult res2 sql2 true (some reason2),
                jsSet cache sql
                  ⟨res2.rows, res2.columns, res2.lastQueryId, now⟩)
          | .error e2 =>
              ({ ok := some false, error := some e2,
                 attemptedSql := some sql2, repaired := some true,
                 repairReason := some (some reason2) }, cache)

/-- The `execute` body of `ExecuteSQLWithRepair`: clean the cache, serve a
fresh hit (note: without `truncated` and with `fromCache: true`), drop a
stale hit, else execute with repairs. -/
def executeSQLWithRepair (o : RepairOracle) (now : Nat)
    (cache : List (String × CacheEntry)) (sql : String) :
    RepairToolResult × List (String × CacheEntry) :=
  let cache := cleanExpiredCache now cache
  match aget cache sql with
  | some ent =>
      if now - ent.cachedAt < CACHE_MAX_AGE_MS then
        ({ rows := some ent.rows, columns := some ent.columns,
           lastQueryId := some ent.lastQueryId, attemptedSql := some sql,
           repaired := some false, repairReason := some none,
           fromCache := some true }, cache)
      else
        execFlow o now (cache.filter (fun p => !(p.1 = sql))) sql
  | none => execFlow o now cache sql

theorem executeSQLWithRepair_miss_eval (o : RepairOracle) (sql : String)
    (t1 : Nat) (res : ExecSuccess) (hexec : o.exec sql = .ok res) :
    executeSQLWithRepair o t1 [] sql =
      (successResult res sql false none,
        [(sql, ⟨res.rows, res.columns, res.lastQueryId, t1⟩)]) := by
  simp [executeSQLWithRepair, cleanExpiredCache, CACHE_MAX_SIZE, aget,
    execFlow, hexec, jsSet]

theorem executeSQLWithRepair_hit_eval (o : RepairOracle) (sql : String)
    (t1 t2 : Nat) (res : ExecSuccess)
    (h12 : t1 ≤ t2) (hfresh : t2 - t1 < CACHE_MAX_AGE_MS) :
    executeSQLWithRepair o t2
        [(sql, ⟨res.rows, res.columns, res.lastQueryId, t1⟩)] sql =
      ({ rows := some res.rows, columns := some res.columns,
         lastQueryId := some res.lastQueryId, attemptedSql := some sql,
         repaired := some false, repairReason := some none,
         fromCache := some true },
        [(sql, ⟨res.rows, res.columns, res.lastQueryId, t1⟩)]) := by
  have hkeep : ¬ (t2 - t1 > CACHE_MAX_AGE_MS) := by
    unfold CACHE_MAX_AGE_MS at hfresh ⊢
    omega
  simp [executeSQLWithRepair, cleanExpiredCache, CACHE_MAX_SIZE, aget,
    hkeep, hfresh]

/-- C5, corrected: a fresh cache hit (same SQL within five minutes of a
successful, miss-populated execution) returns the same `rows`, `columns`
and `lastQueryId` as the original execution, but the returned objects are
not structurally equal: the hit carries `fromCache: true` and omits the
`truncated` flag that the original carried. -/
theorem cacheHit_shares_payload_not_structure (o : RepairOracle)
    (sql : String) (t1 t2 : Nat) (res : ExecSuccess)
    (r1 r2 : RepairToolResult) (c1 c2 : List (String × CacheEntry))
    (hexec : o.exec sql = .ok res)
    (h12 : t1 ≤ t2) (hfresh : t2 - t1 < CACHE_MAX_AGE_MS)
    (h1 : executeSQLWithRepair o t1 [] sql = (r1, c1))
    (h2 : executeSQLWithRepair o t2 c1 sql = (r2, c2)) :
    r2.rows = r1.rows ∧ r2.columns = r1.columns ∧
      r2.lastQueryId = r1.lastQueryId ∧
      r2.fromCache = some true ∧ r1.fromCache = none ∧
      r2.truncated = none ∧ r1.truncated = some res.truncated ∧
      r2 ≠ r1 := by
  rw [executeSQLWithRepair_miss_eval o sql t1 res hexec] at h1
  simp only [Prod.mk.injEq] at h1
  obtain ⟨hr1, hc1⟩ := h1
  rw [← hc1, executeSQLWithRepair_hit_eval o sql t1 t2 res h12 hfresh] at h2
  simp only [Prod.mk.injEq] at h2
  obtain ⟨hr2, -⟩ := h2
  subst hr1 hr2
  refine ⟨rfl, rfl, rfl, rfl, rfl, rfl, rfl, ?_⟩
  intro heq
  have := congrArg RepairToolResult.truncated heq
  simp [successResult] at this

/-- The oracle of the concrete C5 runs: every execution succeeds with one
row and one column. -/
def cex5Oracle : RepairOracle :=
  { exec := fun _ =>
      .ok { rows := [[("A", SqlVal.n 1)]],
            columns := [{ name := "A", type := "NUMBER" }],
            lastQueryId := "qid-1", truncated := false },
    repair := fun _ _ => none }

/-- C5 counterexample: execute, then re-execute the same SQL one second
later; the cache-hit object is not structurally equal to the object the
miss-populated execution returned. -/
theorem cacheHit_not_structurally_equal :
    (executeSQLWithRepair cex5Oracle 2000
        ((executeSQLWithRepair cex5Oracle 1000 [] "SELECT 1").2)
        "SELECT 1").1 ≠
      (executeSQLWithRepair cex5Oracle 1000 [] "SELECT 1").1 := by decide

/-- Witness for `cacheHit_shares_payload_not_structure` at the concrete
runs of `cex5Oracle`. -/
theorem cacheHit_shares_payload_not_structure_witness :
    (executeSQLWithRepair cex5Oracle 2000
          ((executeSQLWithRepair cex5Oracle 1000 [] "SELECT 1").2)
          "SELECT 1").1.rows =
        (executeSQLWithRepair cex5Oracle 1000 [] "SELECT 1").1.rows ∧
      (executeSQLWithRepair cex5Oracle 2000
          ((executeSQLWithRepair cex5Oracle 1000 [] "SELECT 1").2)
          "SELECT 1").1.fromCache = some true :=
  by
  have h := cacheHit_shares_payload_not_structure cex5Oracle "SELECT 1"
    1000 2000
    { rows := [[("A", SqlVal.n 1)]],
      columns := [{ name := "A", type := "NUMBER" }],
      lastQueryId := "qid-1", truncated := false }
    (executeSQLWithRepair cex5Oracle 1000 [] "SELECT 1").1
    (executeSQLWithRepair cex5Oracle 2000
      ((executeSQLWithRepair cex5Oracle 1000 [] "SELECT 1").2) "SELECT 1").1
    (executeSQLWithRepair cex5Oracle 1000 [] "SELECT 1").2
    (executeSQLWithRepair cex5Oracle 2000
      ((executeSQLWithRepair cex5Oracle 1000 [] "SELECT 1").2) "SELECT 1").2
    rfl (by decide) (by decide) rfl rfl
  exact ⟨h.1, h.2.2.2.1⟩

/-! ## `src/lib/sql/joins.ts`: join-path computation -/

/-- A directed traversal record of the undirected join graph
(`GraphEdge` in `joins.ts`; in `computeJoinPath`'s result these become the
`JoinEdge`s with `from := a`, `to := b`). -/
structure GraphEdge where
  a : String
  b : String
  fromField : String
  toField : String
  relationship : Relationship
  deriving DecidableEq, Repr

/-- `if (!g.has(k)) g.set(k, [])`. -/
def ensureKey (g : List (String × List GraphEdge)) (k : String) :
    List (String × List GraphEdge) :=
  if (aget g k).isSome then g else jsSet g k []

/-- `g.get(k)!.push(e)`. -/
def pushEdge (g : List (String × List GraphEdge)) (k : String)
    (e : GraphEdge) : List (String × List GraphEdge) :=
  jsSet g k ((aget g k).getD [] ++ [e])

/-- `buildGraph` from `joins.ts`: every declared join contributes the
forward record and the reversed record with swapped fields. -/
def buildGraph (registry : List (String × EntityJson)) :
    List (String × List GraphEdge) :=
  registry.foldl
    (fun g p =>
      let g := ensureKey g p.1
      p.2.joins.foldl
        (fun g j =>
          let g := ensureKey g j.target_entity
          let g := pushEdge g p.1
            { a := p.1, b := j.target_entity,
              fromField := j.join_columns.colFrom,
              toField := j.join_columns.colTo,
              relationship := j.relationship }
          pushEdge g j.target_entity
            { a := j.target_entity, b := p.1,
              fromField := j.join_columns.colTo,
              toField := j.join_columns.colFrom,
              relationship := j.relationship })
        g)
    []

/-- The BFS `prev` map: discovered node ↦ (predecessor, discovering edge);
the start maps to itself with no edge. -/
def BfsPrev : Type := List (String × (String × Option GraphEdge))

/-- Path reconstruction (`while (cur !== start) { p = prev.get(cur)! … }`),
fuelled by the size of `prev`; the `none` cases are unreachable for a
`prev` produced by the search. -/
def reconstruct : Nat → BfsPrev → String → String → List GraphEdge →
    Option (List GraphEdge)
  | 0, _, _, _, _ => none
  | fuel + 1, prev, cur, start, acc =>
      if cur = start then some acc.reverse
      else
        match aget prev cur with
        | some (node, some e) => reconstruct fuel prev node start (acc ++ [e])
        | _ => none

/-- The inner `for (const e of g.get(u) ?? [])` of the BFS: discover new
nodes, and stop as soon as the goal is discovered (returning the `prev`
at that point). -/
def scanAdj (goal u : String) : List GraphEdge → List String → BfsPrev →
    BfsPrev ⊕ (List String × BfsPrev)
  | [], q, prev => .inr (q, prev)
  | e :: es, q, prev =>
      if (aget prev e.b).isSome then scanAdj goal u es q prev
      else
        let prev := jsSet prev e.b (u, some e)
        if e.b = goal then .inl prev
        else scanAdj goal u es (q ++ [e.b]) prev

/-- The BFS work loop (`while (q.length)`), fuelled; every enqueued node
is freshly discovered, so the number of dequeues is bounded by the number
of graph keys plus one and the fuel supplied by `shortestPath` never runs
out. -/
def bfsLoop (g : List (String × List GraphEdge)) (goal : String) :
    Nat → List String → BfsPrev → Option BfsPrev
  | 0, _, _ => none
  | _ + 1, [], _ => none
  | fuel + 1, u :: qrest, prev =>
      match scanAdj goal u ((aget g u).getD []) qrest prev with
      | .inl prevFound => some prevFound
      | .inr (q2, prev2) => bfsLoop g goal fuel q2 prev2

/-- `shortestPath` from `joins.ts`. -/
def shortestPath (g : List (String × List GraphEdge)) (start goal : String) :
    Option (List GraphEdge) :=
  if start = goal then some []
  else
    match bfsLoop g goal (g.length + 2) [start] [(start, (start, none))] with
    | some prev => reconstruct (prev.length + 1) prev goal start []
    | none => none

/-- `Array.from(new Set(l))`: deduplicate keeping first occurrences. -/
def dedupFirstAux : List String → List String → List String
  | _, [] => []
  | seen, x :: xs =>
      if x ∈ seen then dedupFirstAux seen xs
      else x :: dedupFirstAux (x :: seen) xs

def dedupFirst (l : List String) : List String := dedupFirstAux [] l

/-- JS default string comparison (lexicographic by code units). -/
def charListLeb : List Char → List Char → Bool
  | [], _ => true
  | _ :: _, [] => false
  | x :: xs, y :: ys =>
      if x.val < y.val then true
      else if y.val < x.val then false
      else charListLeb xs ys

def strLeb (a b : String) : Bool := charListLeb a.data b.data

/-- `Array.prototype.sort()` with the default comparator (insertion sort;
the entity names being sorted are distinct, so stability is moot). -/
def insSortStr (x : String) : List String → List String
  | [] => [x]
  | y :: ys => if strLeb x y then x :: y :: ys else y :: insSortStr x ys

def sortStr : List String → List String
  | [] => []
  | x :: xs => insSortStr x (sortStr xs)

/-- Digits of a natural number (`String(i)` for the alias suffix). -/
def natToStrAux : Nat → Nat → List Char
  | 0, _ => []
  | fuel + 1, n =>
      if n < 10 then [Char.ofNat (48 + n)]
      else natToStrAux fuel (n / 10) ++ [Char.ofNat (48 + n % 10)]

def natToStr (n : Nat) : String := String.mk (natToStrAux (n + 1) n)

example : natToStr 0 = "0" := rfl
example : natToStr 12 = "12" := rfl

/-- The result of `computeJoinPath` (`JoinPathResult`); `edges` keep the
`a`/`b` field names of `GraphEdge` (the source relabels them `from`/`to`). -/
structure JoinPathResult where
  edges : List GraphEdge
  aliasByEntity : List (String × String)
  orderedEntities : List String
  deriving DecidableEq, Repr

/-- The `seenPairs` key of an edge. -/
def edgeKey (e : GraphEdge) : String :=
  e.a ++ "->" ++ e.b ++ ":" ++ e.fromField ++ "=" ++ e.toField

/-- Deduplicated accumulation of one path's edges. -/
def addPathEdges : List GraphEdge → List GraphEdge → List String →
    List GraphEdge × List String
  | [], acc, seen => (acc, seen)
  | e :: es, acc, seen =>
      if edgeKey e ∈ seen then addPathEdges es acc seen
      else addPathEdges es (acc ++ [e]) (seen ++ [edgeKey e])

/-- The target loop of `computeJoinPath`. -/
def collectEdges (g : List (String × List GraphEdge)) (base : String) :
    List String → List GraphEdge → List String →
      Except MErr (List GraphEdge)
  | [], acc, _ => .ok acc
  | t :: ts, acc, seen =>
      if t = base then collectEdges g base ts acc seen
      else
        match shortestPath g base t with
        | none =>
            .error (.msg ("No join path from \"" ++ base ++ "\" to \"" ++ t
              ++ "\". Make sure Planning loaded all necessary joined entities."))
        | some p =>
            let r := addPathEdges p acc seen
            collectEdges g base ts r.1 r.2

/-- `computeJoinPath` from `joins.ts`. -/
def computeJoinPath (baseEntity : String) (requiredEntities : List String)
    (registry : List (String × EntityJson)) : Except MErr JoinPathResult :=
  let g := buildGraph registry
  match collectEdges g baseEntity requiredEntities [] [] with
  | .error e => .error e
  | .ok edges =>
      let entitySet :=
        dedupFirst (baseEntity :: edges.bind (fun e => [e.a, e.b]))
      let others := sortStr (entitySet.filter (fun n => !(n = baseEntity)))
      let orderedEntities := baseEntity :: others
      let aliasByEntity :=
        orderedEntities.enum.map (fun p => (p.2, "t" ++ natToStr p.1))
      .ok { edges := edges, aliasByEntity := aliasByEntity,
            orderedEntities := orderedEntities }

example :
    computeJoinPath "e" ["e"]
      [("e", { name := "e", table := "db.s.e", grain := "row" })] =
    .ok { edges := [], aliasByEntity := [("e", "t0")],
          orderedEntities := ["e"] } := rfl

/-! ## `src/lib/sql/render.ts` -/

/-- `intent.timeRange` (the zod refinement guarantees both bounds when
present; `stop` models the `end` field, a Lean keyword). -/
structure TimeRange where
  start : String
  stop : String
  deriving DecidableEq, Repr

/-- `Intent` from `planning/types.ts`, restricted to the fields the
renderer reads (`grain`/`compare` are advisory only).  Structured filters
share the `{field, operator, values}` shape of metric filters. -/
structure Intent where
  metrics : List String := []
  dimensions : List String := []
  filters : List String := []
  structuredFilters : List MetricFilter := []
  timeRange : Option TimeRange := none
  deriving DecidableEq, Repr

/-- `FinalizedPlan`, restricted to the fields the renderer reads
(`requiredFields`, `joinGraph`, `assumptions`, `risks` are not consulted
by `renderSQLFromPlan`). -/
structure FinalizedPlan where
  intent : Intent
  selectedEntities : List String
  deriving DecidableEq, Repr

/-- `'...'.replace(/'/g, "''")`. -/
def escQuotes (s : String) : String :=
  String.mk (s.data.foldr
    (fun c acc => if c = '\x27' then '\x27' :: '\x27' :: acc else c :: acc) [])

/-- `asSqlLiteral` from `buildPredicate`. -/
def asSqlLiteral : SqlVal → String
  | .n v => if v < 0 then "-" ++ natToStr (v.natAbs) else natToStr v.natAbs
  | .b true => "TRUE"
  | .b false => "FALSE"
  | .s v => "'" ++ escQuotes v ++ "'"

/-- `buildPredicate` from `render.ts` (both arms of the dead conditional
on `field.includes('.')` produce the same token). -/
def buildPredicate (fuel : Nat) (f : MetricFilter) (ctx : MacroContext) :
    Except MErr String :=
  match expandSqlExpression fuel ctx [] ("\x7b" ++ f.field ++ "\x7d") with
  | .error e => .error e
  | .ok fieldSql =>
      if f.operator = "in" ∨ f.operator = "not_in" then
        .ok (fieldSql ++ (if f.operator = "in" then " IN (" else " NOT IN (")
          ++ joinSep ", " (f.values.map asSqlLiteral) ++ ")")
      else if ¬ f.values.length = 1 then
        .error (.msg ("Operator " ++ f.operator ++ " expects a single value."))
      else
        let v := asSqlLiteral (f.values.headD (.s ""))
        if f.operator = "=" ∨ f.operator = "!=" ∨ f.operator = ">"
            ∨ f.operator = ">=" ∨ f.operator = "<" ∨ f.operator = "<=" then
          .ok (fieldSql ++ " " ++ f.operator ++ " " ++ v)
        else
          .error (.msg ("Unsupported operator: " ++ f.operator))

/-- `findMetric` from `render.ts`. -/
def findMetric (ent : EntityJson) (nameOrAlias : String) : Option MetricRaw :=
  match aget ent.metricIndex nameOrAlias with
  | some m => some m
  | none =>
      match aget ent.reverseAliasIndex nameOrAlias with
      | some canonical => aget ent.metricIndex canonical
      | none => none

/-- `findMeasure` from `render.ts`. -/
def findMeasure (ent : EntityJson) (name : String) : Option MeasureRaw :=
  aget ent.measureIndex name

/-- `buildMetricExpr` from `render.ts` (aggregation construction with
metric-source filters). -/
def buildMetricExpr (fuel : Nat) (metric : MetricRaw) (hostEntity : EntityJson)
    (ctx : MacroContext) : Except MErr String :=
  if ¬ metric.type = "atomic" ∨ metric.source = none then
    .error (.msg
      ("Only atomic metrics with a single measure source are supported initially: "
        ++ metric.name))
  else
    match metric.source with
    | none => .error (.msg
        ("Only atomic metrics with a single measure source are supported initially: "
          ++ metric.name))
    | some src =>
      match findMeasure hostEntity src.measure with
      | none => .error (.msg ("Measure \"" ++ src.measure
          ++ "\" not found in entity \"" ++ hostEntity.name ++ "\"."))
      | some measure =>
        let sqlExprE : Except MErr (Option String) :=
          match measure.sql with
          | some s =>
              match expandSqlExpression fuel
                  { ctx with currentEntity := hostEntity.name } [] s with
              | .ok e => .ok (some e)
              | .error e => .error e
          | none => .ok none
        match sqlExprE with
        | .error e => .error e
        | .ok sqlExpr =>
          let aggE : Except MErr String :=
            match measure.type with
            | .count => .ok "COUNT(*)"
            | .count_distinct =>
                match sqlExpr with
                | none => .error (.msg ("count_distinct requires 'sql' on measure \""
                    ++ measure.name ++ "\"."))
                | some e => .ok ("COUNT(DISTINCT " ++ e ++ ")")
            | .number => .error (.msg "Unsupported measure type: number")
            | mt =>
                match sqlExpr with
                | none => .error (.msg (mt.upper ++ " requires 'sql' on measure \""
                    ++ measure.name ++ "\"."))
                | some e => .ok (mt.upper ++ "(" ++ e ++ ")")
          match aggE with
          | .error e => .error e
          | .ok agg =>
            match src.filters.getD [] with
            | [] => .ok agg
            | f :: fs =>
              match (f :: fs).mapM (fun f => buildPredicate fuel f ctx) with
              | .error e => .error e
              | .ok preds =>
                let pred :=
                  if preds.length = 1 then preds.headD ""
                  else "(" ++ joinSep ") AND (" preds ++ ")"
                match measure.type with
                | .count => .ok ("COUNT_IF(" ++ pred ++ ")")
                | .count_distinct =>
                    match measure.sql with
                    | none => .error (.msg
                        "TypeError: measure.sql is undefined")
                    | some s =>
                        match expandSqlExpression fuel
                            { ctx with currentEntity := hostEntity.name } [] s with
                        | .error e => .error e
                        | .ok e => .ok ("COUNT(DISTINCT IFF(" ++ pred ++ ", "
                            ++ e ++ ", NULL))")
                | mt =>
                    match measure.sql with
                    | none => .error (.msg
                        "TypeError: measure.sql is undefined")
                    | some s =>
                        match expandSqlExpression fuel
                            { ctx with currentEntity := hostEntity.name } [] s with
                        | .error e => .error e
                        | .ok e => .ok (mt.upper ++ "(IFF(" ++ pred ++ ", "
                            ++ e ++ ", NULL))")

/-- `resolveDimensionExpr` from `render.ts` (again both arms of the dead
dotted conditional coincide). -/
def resolveDimensionExpr (fuel : Nat) (field : String)
    (currentEntityName : String) (ctx : MacroContext) : Except MErr String :=
  expandSqlExpression fuel { ctx with currentEntity := currentEntityName } []
    ("\x7b" ++ field ++ "\x7d")

/-- `dim.split('.').slice(-1)[0]` (the text after the last dot; the whole
string when it has no dot). -/
def lastDotSegment (s : String) : String := String.mk (go [] s.data) where
  go (cur : List Char) : List Char → List Char
    | [] => cur
    | '.' :: rest => go [] rest
    | c :: rest => go (cur ++ [c]) rest

example : lastDotSegment "a.b" = "b" := rfl
example : lastDotSegment "plain" = "plain" := rfl

/-- `ff.replace(/\*\//g, '* /')` for free-form-filter comments. -/
def replaceStarSlash (s : String) : String := String.mk (go s.data) where
  go : List Char → List Char
    | '*' :: '/' :: rest => '*' :: ' ' :: '/' :: go rest
    | c :: rest => c :: go rest
    | [] => []

/-- SELECT-list entries for `intent.dimensions`. -/
def dimColsOf (fuel : Nat) (dims : List String) (base : String)
    (ctx : MacroContext) : Except MErr (List String) :=
  dims.mapM (fun dim => do
    let expr ← resolveDimensionExpr fuel dim base ctx
    pure (expr ++ " AS \"" ++ lastDotSegment dim ++ "\""))

/-- The host-entity scan for one metric name: first a metric by name or
alias over `orderedEntities`, then a measure (wrapped in a synthetic
atomic metric anchored on the host's first time dimension, defaulting to
`created_on`). -/
def findMetricHost (registry : List (String × EntityJson)) (mname : String) :
    List String → Except MErr (Option (EntityJson × MetricRaw))
  | [] => .ok none
  | e :: es =>
      match aget registry e with
      | none => .error (.msg "TypeError: registry.get(...) is undefined")
      | some ent =>
          match findMetric ent mname with
          | some m => .ok (some (ent, m))
          | none => findMetricHost registry mname es

def findMeasureHost (registry : List (String × EntityJson)) (mname : String) :
    List String → Except MErr (Option (EntityJson × MetricRaw))
  | [] => .ok none
  | e :: es =>
      match aget registry e with
      | none => .error (.msg "TypeError: registry.get(...) is undefined")
      | some ent =>
          match findMeasure ent mname with
          | some _ =>
              .ok (some (ent,
                { name := "__measure_" ++ mname, type := "atomic",
                  source := some
                    { measure := mname,
                      anchor_date :=
                        match ent.time_dimensions with
                        | [] => "created_on"
                        | td :: _ => td.name } }))
          | none => findMeasureHost registry mname es

/-- SELECT-list entries for `intent.metrics`. -/
def metColsOf (fuel : Nat) (metrics : List String)
    (registry : List (String × EntityJson)) (ordered : List String)
    (ctx : MacroContext) : Except MErr (List String) :=
  metrics.mapM (fun mname => do
    let hostM ← findMetricHost registry mname ordered
    let hm ← match hostM with
      | some hm => pure hm
      | none => do
          let mh ← findMeasureHost registry mname ordered
          match mh with
          | some hm => pure hm
          | none => Except.error (.msg ("Metric or measure \"" ++ mname
              ++ "\" not found in selected entities."))
    let expr ← buildMetricExpr fuel hm.2 hm.1
      { ctx with currentEntity := hm.1.name }
    pure (expr ++ " AS \"" ++ mname ++ "\""))

/-- JOIN clauses for the computed edges. -/
def joinClausesOf (edges : List GraphEdge)
    (registry : List (String × EntityJson))
    (aliasByEntity : List (String × String)) (ctx : MacroContext) :
    Except MErr (List String) :=
  edges.mapM (fun e => do
    let leftCol ← qualifySimpleColumn ("{CUBE}." ++ e.fromField) e.a
      { ctx with currentEntity := e.a }
    let rightCol ← qualifySimpleColumn ("{CUBE}." ++ e.toField) e.b
      { ctx with currentEntity := e.b }
    let joinType :=
      if e.relationship = Relationship.many_to_many then "INNER JOIN"
      else "LEFT JOIN"
    match aget registry e.b with
    | none => Except.error (.msg "TypeError: registry.get(...) is undefined")
    | some rightEnt =>
        pure (joinType ++ " " ++ rightEnt.table ++ " "
          ++ (aget aliasByEntity e.b).getD "undefined" ++ " ON "
          ++ leftCol ++ " = " ++ rightCol))

/-- The half-open time predicate emitted for `intent.timeRange`. -/
def timePred (tExpr : String) (tr : TimeRange) : String :=
  tExpr ++ " >= '" ++ tr.start ++ "' AND " ++ tExpr ++ " < '" ++ tr.stop ++ "'"

/-- The WHERE entry for `intent.timeRange` (empty list when no range). -/
def timeWhereOf (fuel : Nat) (timeRange : Option TimeRange)
    (baseEnt : EntityJson) (base : String) (ctx : MacroContext) :
    Except MErr (List String) :=
  match timeRange with
  | none => .ok []
  | some tr =>
      match baseEnt.time_dimensions with
      | [] => .error (.msg ("No time dimension found in base entity \""
          ++ base ++ "\" to apply time range."))
      | td :: _ =>
          match expandSqlExpression fuel ctx [] td.sql with
          | .error e => .error e
          | .ok tExpr => .ok [timePred tExpr tr]

/-- Final statement assembly (step "Build the SQL"): the parts list that
is joined with newlines. -/
def assembleParts (selectCols : List String) (fromClause : String)
    (joins : List String) (whereList : List String)
    (groupByClause : String) : List String :=
  ["SELECT"]
    ++ [if selectCols.length > 0 then "  " ++ joinSep ",\n  " selectCols
        else "  1 AS dummy"]
    ++ [fromClause]
    ++ (if joins.length > 0 then [joinSep "\n" joins] else [])
    ++ (if whereList.length > 0 then
          ["WHERE " ++ joinSep "\n  AND " whereList] else [])
    ++ (if ¬ groupByClause = "" then [groupByClause] else [])
    ++ ["LIMIT 1001"]

/-- The macro context built by `renderSQLFromPlan` (base entity current,
aliases from the join path). -/
def renderCtx (base : String) (jp : JoinPathResult)
    (registry : List (String × EntityJson)) : MacroContext :=
  { currentEntity := base, aliasByEntity := jp.aliasByEntity,
    registry := registry }

/-- `renderSQLFromPlan` up to the final newline join: every successful
exit produces `assembleParts …`. -/
def renderParts (fuel : Nat) (plan : FinalizedPlan)
    (registry : List (String × EntityJson)) : Except MErr (List String) :=
  match plan.selectedEntities with
  | [] => .error (.msg "No base entity selected.")
  | base :: _ =>
    match computeJoinPath base (dedupFirst plan.selectedEntities) registry with
    | .error e => .error e
    | .ok jp =>
      match dimColsOf fuel plan.intent.dimensions base
          (renderCtx base jp registry) with
      | .error e => .error e
      | .ok dimCols =>
        match metColsOf fuel plan.intent.metrics registry
            jp.orderedEntities (renderCtx base jp registry) with
        | .error e => .error e
        | .ok metCols =>
          match aget registry base with
          | none => .error (.msg "TypeError: registry.get(base) is undefined")
          | some baseEnt =>
            let fromClause := "FROM " ++ baseEnt.table ++ " "
              ++ (aget jp.aliasByEntity base).getD "undefined"
            match joinClausesOf jp.edges registry jp.aliasByEntity
                (renderCtx base jp registry) with
            | .error e => .error e
            | .ok joins =>
              match timeWhereOf fuel plan.intent.timeRange baseEnt base
                  (renderCtx base jp registry) with
              | .error e => .error e
              | .ok timeWhere =>
                match plan.intent.structuredFilters.mapM
                    (fun f => buildPredicate fuel f
                      (renderCtx base jp registry)) with
                | .error e => .error e
                | .ok sfPreds =>
                  let comments := plan.intent.filters.map
                    (fun ff => "/* user_filter: " ++ replaceStarSlash ff
                      ++ " */")
                  let whereList := timeWhere ++ sfPreds ++ comments
                  let dimCount := plan.intent.dimensions.length
                  let groupByClause :=
                    if dimCount > 0 then
                      "GROUP BY " ++ joinSep ", "
                        ((List.range dimCount).map (fun i => natToStr (i + 1)))
                    else ""
                  .ok (assembleParts (dimCols ++ metCols) fromClause joins
                    whereList groupByClause)

/-- `renderSQLFromPlan` from `render.ts` (with macro-expansion fuel). -/
def renderSQLFromPlan (fuel : Nat) (plan : FinalizedPlan)
    (registry : List (String × EntityJson)) : Except MErr String :=
  match renderParts fuel plan registry with
  | .error e => .error e
  | .ok parts => .ok (joinSep "\n" parts)

/-- A small registry for sanity checks and witnesses: an `orders` entity
with one string dimension, one time dimension and a `count` measure. -/
def ordersEntity : EntityJson :=
  { name := "orders", table := "dwh.analytics.orders", grain := "order",
    dimensions :=
      [{ name := "account_tier", sql := "{CUBE}.ACCOUNT_TIER",
         type := "string" }],
    time_dimensions :=
      [{ name := "created_on", sql := "{CUBE}.created_on" }],
    measures := [{ name := "order_count", type := .count }],
    dimIndex := indexByName DimensionRaw.name
      [{ name := "account_tier", sql := "{CUBE}.ACCOUNT_TIER",
         type := "string" }],
    measureIndex := indexByName MeasureRaw.name
      [{ name := "order_count", type := .count }] }

def ordersRegistry : List (String × EntityJson) := [("orders", ordersEntity)]

example :
    renderSQLFromPlan 10
      { intent := { dimensions := ["account_tier"],
                    metrics := ["order_count"] },
        selectedEntities := ["orders"] }
      ordersRegistry =
    .ok ("SELECT\n  t0.ACCOUNT_TIER AS \"account_tier\",\n  COUNT(*) AS \"order_count\"\n"
      ++ "FROM dwh.analytics.orders t0\nGROUP BY 1\nLIMIT 1001") := rfl

example :
    renderSQLFromPlan 10
      { intent := { timeRange := some { start := "2024-01-01",
                                        stop := "2024-02-01" } },
        selectedEntities := ["orders"] }
      ordersRegistry =
    .ok ("SELECT\n  1 AS dummy\nFROM dwh.analytics.orders t0\n"
      ++ "WHERE t0.created_on >= '2024-01-01' AND t0.created_on < '2024-02-01'\n"
      ++ "LIMIT 1001") := rfl

/-! ### String-decomposition lemmas for the rendered SQL -/

theorem str_assoc4 (a b c d : String) : a ++ (b ++ c ++ d) = (a ++ b) ++ c ++ d := by
  apply String.ext
  simp [String.data_append]

/-- Any element of the joined parts is an infix of the join. -/
theorem joinSep_mem (sep : String) :
    ∀ (parts : List String) (x : String), x ∈ parts →
      ∃ pre post, joinSep sep parts = pre ++ x ++ post := by
  intro parts
  induction parts with
  | nil => intro x hx; exact absurd hx (List.not_mem_nil x)
  | cons p ps ih =>
    intro x hx
    rcases List.mem_cons.mp hx with rfl | hx
    · cases ps with
      | nil =>
        refine ⟨"", "", ?_⟩
        apply String.ext
        simp [joinSep, String.data_append]
      | cons y ys =>
        refine ⟨"", sep ++ joinSep sep (y :: ys), ?_⟩
        apply String.ext
        simp [joinSep, String.data_append]
    · cases ps with
      | nil => exact absurd hx (List.not_mem_nil x)
      | cons y ys =>
        obtain ⟨pre, post, hih⟩ := ih x hx
        refine ⟨p ++ sep ++ pre, post, ?_⟩
        show p ++ sep ++ joinSep sep (y :: ys) = _
        rw [hih]
        apply String.ext
        simp [String.data_append]

theorem joinSep_cons2 (sep x y : String) (rest : List String) :
    joinSep sep (x :: y :: rest) = x ++ sep ++ joinSep sep (y :: rest) := rfl

/-- A nonempty join starts with its head. -/
theorem joinSep_cons (sep x : String) (xs : List String) :
    ∃ t, joinSep sep (x :: xs) = x ++ t := by
  cases xs with
  | nil =>
    refine ⟨"", ?_⟩
    apply String.ext
    simp [joinSep, String.data_append]
  | cons y ys =>
    refine ⟨sep ++ joinSep sep (y :: ys), ?_⟩
    apply String.ext
    simp [joinSep, String.data_append]

/-- Joining a list that ends in `x` ends in `sep ++ x`. -/
theorem joinSep_append_last (sep : String) :
    ∀ (front : List String) (x : String), front ≠ [] →
      joinSep sep (front ++ [x]) = joinSep sep front ++ sep ++ x := by
  intro front
  induction front with
  | nil => intro x hne; exact absurd rfl hne
  | cons p ps ih =>
    intro x _
    cases ps with
    | nil => rfl
    | cons q qs =>
      show p ++ sep ++ joinSep sep ((q :: qs) ++ [x]) = _
      rw [ih x (by simp)]
      apply String.ext
      simp [joinSep, String.data_append]

/-- Every successful `renderParts` is an `assembleParts`. -/
theorem renderParts_shape (fuel : Nat) (plan : FinalizedPlan)
    (registry : List (String × EntityJson)) (ps : List String)
    (hp : renderParts fuel plan registry = .ok ps) :
    ∃ sc fc js wl gb, ps = assembleParts sc fc js wl gb := by
  unfold renderParts at hp
  repeat' split at hp
  all_goals
    first
      | exact ⟨_, _, _, _, _, (Except.ok.inj hp).symm⟩
      | cases hp

/-- The parts list always ends in the LIMIT clause. -/
theorem assembleParts_last (sc : List String) (fc : String)
    (js wl : List String) (gb : String) :
    ∃ front, assembleParts sc fc js wl gb = front ++ ["LIMIT 1001"] ∧
      front ≠ [] := by
  refine ⟨["SELECT"]
    ++ [if sc.length > 0 then "  " ++ joinSep ",\n  " sc else "  1 AS dummy"]
    ++ [fc]
    ++ (if js.length > 0 then [joinSep "\n" js] else [])
    ++ (if wl.length > 0 then ["WHERE " ++ joinSep "\n  AND " wl] else [])
    ++ (if ¬ gb = "" then [gb] else []), ?_, by simp⟩
  simp [assembleParts]

/-- C7, amended: every successfully rendered statement ends with the
final clause `LIMIT 1001` on its own line.  (The substring can occur more
than once: user-supplied filter text reproduces it, see the
counterexample.) -/
theorem renderSQL_ends_with_limit (fuel : Nat) (plan : FinalizedPlan)
    (registry : List (String × EntityJson)) (s : String)
    (h : renderSQLFromPlan fuel plan registry = .ok s) :
    ∃ pre, s = pre ++ "\nLIMIT 1001" := by
  unfold renderSQLFromPlan at h
  cases hp : renderParts fuel plan registry with
  | error e => rw [hp] at h; cases h
  | ok parts =>
    rw [hp] at h
    have hs : s = joinSep "\n" parts := (Except.ok.inj h).symm
    obtain ⟨sc, fc, js, wl, gb, hshape⟩ :=
      renderParts_shape fuel plan registry parts hp
    obtain ⟨front, hfront, hne⟩ := assembleParts_last sc fc js wl gb
    refine ⟨joinSep "\n" front, ?_⟩
    rw [hs, hshape, hfront, joinSep_append_last "\n" front "LIMIT 1001" hne]
    apply String.ext
    simp [String.data_append]

/-- Witness for `renderSQL_ends_with_limit` on the concrete orders plan. -/
theorem renderSQL_ends_with_limit_witness :
    ∃ pre,
      "SELECT\n  t0.ACCOUNT_TIER AS \"account_tier\",\n  COUNT(*) AS \"order_count\"\nFROM dwh.analytics.orders t0\nGROUP BY 1\nLIMIT 1001"
        = pre ++ "\nLIMIT 1001" :=
  renderSQL_ends_with_limit 10
    { intent := { dimensions := ["account_tier"], metrics := ["order_count"] },
      selectedEntities := ["orders"] }
    ordersRegistry _ rfl

/-- Count of the occurrences of `pat` in a character list (all start
positions). -/
def countOcc (pat : List Char) : List Char → Nat
  | [] => if pat = [] then 1 else 0
  | c :: cs =>
      (if pat.isPrefixOf (c :: cs) then 1 else 0) + countOcc pat cs

/-- Occurrences of a substring in rendered SQL. -/
def countSubstr (pat s : String) : Nat := countOcc pat.data s.data

example : countSubstr "LIMIT 1001" "LIMIT 1001" = 1 := rfl
example : countSubstr "ab" "abab" = 2 := rfl

/-- The plan of the C7 counterexample: a free-form filter whose text
contains `LIMIT 1001`; the renderer embeds it in a comment. -/
def limitCexPlan : FinalizedPlan :=
  { intent := { filters := ["x LIMIT 1001"] },
    selectedEntities := ["orders"] }

/-- C7 counterexample: the rendered statement is successful yet contains
the substring `LIMIT 1001` twice (once in the user-filter comment, once as
the final clause), so "exactly once" fails. -/
theorem renderSQL_limit_occurs_twice :
    renderSQLFromPlan 10 limitCexPlan ordersRegistry =
      .ok ("SELECT\n  1 AS dummy\nFROM dwh.analytics.orders t0\n"
        ++ "WHERE /* user_filter: x LIMIT 1001 */\nLIMIT 1001") ∧
    countSubstr "LIMIT 1001"
      ("SELECT\n  1 AS dummy\nFROM dwh.analytics.orders t0\n"
        ++ "WHERE /* user_filter: x LIMIT 1001 */\nLIMIT 1001") = 2 :=
  ⟨rfl, rfl⟩

/-- Full characterisation of a successful `renderParts`: the intermediate
results every successful render passes through. -/
theorem renderParts_spec (fuel : Nat) (plan : FinalizedPlan)
    (registry : List (String × EntityJson)) (ps : List String)
    (hp : renderParts fuel plan registry = .ok ps) :
    ∃ base rest jp dimCols metCols baseEnt joins timeWhere sfPreds,
      plan.selectedEntities = base :: rest ∧
      computeJoinPath base (dedupFirst plan.selectedEntities) registry
        = .ok jp ∧
      dimColsOf fuel plan.intent.dimensions base (renderCtx base jp registry)
        = .ok dimCols ∧
      metColsOf fuel plan.intent.metrics registry jp.orderedEntities
        (renderCtx base jp registry) = .ok metCols ∧
      aget registry base = some baseEnt ∧
      joinClausesOf jp.edges registry jp.aliasByEntity
        (renderCtx base jp registry) = .ok joins ∧
      timeWhereOf fuel plan.intent.timeRange baseEnt base
        (renderCtx base jp registry) = .ok timeWhere ∧
      plan.intent.structuredFilters.mapM
        (fun f => buildPredicate fuel f (renderCtx base jp registry))
        = .ok sfPreds ∧
      ps = assembleParts (dimCols ++ metCols)
        ("FROM " ++ baseEnt.table ++ " "
          ++ (aget jp.aliasByEntity base).getD "undefined")
        joins
        (timeWhere ++ sfPreds ++ plan.intent.filters.map
          (fun ff => "/* user_filter: " ++ replaceStarSlash ff ++ " */"))
        (if plan.intent.dimensions.length > 0 then
          "GROUP BY " ++ joinSep ", "
            ((List.range plan.intent.dimensions.length).map
              (fun i => natToStr (i + 1)))
         else "") := by
  unfold renderParts at hp
  repeat' split at hp
  all_goals cases hp
  exact ⟨_, _, _, _, _, _, _, _, _, by assumption, by assumption,
    by assumption, by assumption, by assumption, by assumption,
    by assumption, by assumption, rfl⟩

/-- C9: when the intent names no dimensions and no metrics, a successful
render emits `1 AS dummy` as the entire SELECT list (the next line being
the FROM clause); the SELECT list is never empty. -/
theorem renderSQL_dummy_select (fuel : Nat) (plan : FinalizedPlan)
    (registry : List (String × EntityJson)) (s : String)
    (hdim : plan.intent.dimensions = [])
    (hmet : plan.intent.metrics = [])
    (h : renderSQLFromPlan fuel plan registry = .ok s) :
    ∃ rest, s = "SELECT\n  1 AS dummy\nFROM " ++ rest := by
  unfold renderSQLFromPlan at h
  cases hp : renderParts fuel plan registry with
  | error e => rw [hp] at h; cases h
  | ok parts =>
    rw [hp] at h
    have hs : s = joinSep "\n" parts := (Except.ok.inj h).symm
    obtain ⟨base, rest, jp, dimCols, metCols, baseEnt, joins, timeWhere,
      sfPreds, hsel, hcj, hdimc, hmetc, hbase, hjoins, htw, hsf, hps⟩ :=
      renderParts_spec fuel plan registry parts hp
    rw [hdim] at hdimc
    rw [hmet] at hmetc
    have hdnil : dimCols = [] := by
      have hz : dimColsOf fuel [] base (renderCtx base jp registry)
          = .ok [] := rfl
      rw [hz] at hdimc
      exact (Except.ok.inj hdimc.symm)
    have hmnil : metCols = [] := by
      have hz : metColsOf fuel [] registry jp.orderedEntities
          (renderCtx base jp registry) = .ok [] := rfl
      rw [hz] at hmetc
      exact (Except.ok.inj hmetc.symm)
    rw [hdnil, hmnil, hdim] at hps
    have hps2 : parts = "SELECT" :: "  1 AS dummy" ::
        ("FROM " ++ baseEnt.table ++ " "
          ++ (aget jp.aliasByEntity base).getD "undefined") ::
        ((if joins.length > 0 then [joinSep "\n" joins] else [])
          ++ (if (timeWhere ++ sfPreds ++ plan.intent.filters.map
                (fun ff => "/* user_filter: " ++ replaceStarSlash ff
                  ++ " */")).length > 0 then
                ["WHERE " ++ joinSep "\n  AND "
                  (timeWhere ++ sfPreds ++ plan.intent.filters.map
                    (fun ff => "/* user_filter: " ++ replaceStarSlash ff
                      ++ " */"))] else [])
          ++ ["LIMIT 1001"]) := by
      rw [hps]
      simp [assembleParts]
    obtain ⟨t2, ht2⟩ := joinSep_cons "\n"
      ("FROM " ++ baseEnt.table ++ " "
        ++ (aget jp.aliasByEntity base).getD "undefined") _
    refine ⟨baseEnt.table ++ " "
      ++ (aget jp.aliasByEntity base).getD "undefined" ++ t2, ?_⟩
    rw [hs, hps2, joinSep_cons2, joinSep_cons2, ht2]
    have hlit : ("SELECT\n  1 AS dummy\nFROM " : String).data
        = ("SELECT" : String).data ++ ("\n" : String).data
          ++ ("  1 AS dummy" : String).data ++ ("\n" : String).data
          ++ ("FROM " : String).data := rfl
    apply String.ext
    simp [String.data_append, hlit]

/-- Witness for `renderSQL_dummy_select`: the empty-intent orders plan
renders successfully with the dummy SELECT list. -/
theorem renderSQL_dummy_select_witness :
    ∃ rest,
      "SELECT\n  1 AS dummy\nFROM dwh.analytics.orders t0\nLIMIT 1001"
        = "SELECT\n  1 AS dummy\nFROM " ++ rest :=
  renderSQL_dummy_select 10
    { intent := {}, selectedEntities := ["orders"] } ordersRegistry _
    rfl rfl rfl

theorem timeWhereOf_some (fuel : Nat) (tr : TimeRange) (baseEnt : EntityJson)
    (base : String) (ctx : MacroContext) (td : TimeDimensionRaw)
    (tds : List TimeDimensionRaw) (out : List String)
    (htd : baseEnt.time_dimensions = td :: tds)
    (htw : timeWhereOf fuel (some tr) baseEnt base ctx = .ok out) :
    ∃ tExpr, expandSqlExpression fuel ctx [] td.sql = .ok tExpr ∧
      out = [timePred tExpr tr] := by
  simp only [timeWhereOf] at htw
  split at htw
  · cases htw
  next td2 tds2 heq =>
    rw [htd] at heq
    obtain ⟨h1, -⟩ := List.cons.inj heq
    subst h1
    split at htw
    · cases htw
    next tExpr hexp => exact ⟨tExpr, hexp, (Except.ok.inj htw).symm⟩

/-- C6: if the intent carries a time range and the base entity has a time
dimension, a successfully rendered statement contains the half-open
predicate `tExpr >= 'start' AND tExpr < 'end'`, where `tExpr` is the
macro expansion of the base entity's first time dimension in the render
context. -/
theorem renderSQL_timeRange_halfopen (fuel : Nat) (plan : FinalizedPlan)
    (registry : List (String × EntityJson)) (s : String) (base : String)
    (rest0 : List String) (baseEnt : EntityJson) (td : TimeDimensionRaw)
    (tds : List TimeDimensionRaw) (tr : TimeRange)
    (hsel : plan.selectedEntities = base :: rest0)
    (htr : plan.intent.timeRange = some tr)
    (hreg : aget registry base = some baseEnt)
    (htd : baseEnt.time_dimensions = td :: tds)
    (h : renderSQLFromPlan fuel plan registry = .ok s) :
    ∃ jp tExpr pre post,
      computeJoinPath base (dedupFirst plan.selectedEntities) registry
          = .ok jp ∧
      expandSqlExpression fuel (renderCtx base jp registry) [] td.sql
          = .ok tExpr ∧
      s = pre ++ timePred tExpr tr ++ post := by
  unfold renderSQLFromPlan at h
  cases hp : renderParts fuel plan registry with
  | error e => rw [hp] at h; cases h
  | ok parts =>
    rw [hp] at h
    have hs : s = joinSep "\n" parts := (Except.ok.inj h).symm
    obtain ⟨base2, rest2, jp, dimCols, metCols, baseEnt2, joins, timeWhere,
      sfPreds, hsel2, hcj, hdimc, hmetc, hbase2, hjoins, htw, hsf, hps⟩ :=
      renderParts_spec fuel plan registry parts hp
    rw [hsel] at hsel2
    obtain ⟨h1, -⟩ := List.cons.inj hsel2
    subst h1
    rw [hreg] at hbase2
    have h2 : baseEnt = baseEnt2 := Option.some.inj hbase2
    subst h2
    rw [htr] at htw
    obtain ⟨tExpr, hexp, hout⟩ :=
      timeWhereOf_some fuel tr baseEnt base (renderCtx base jp registry)
        td tds timeWhere htd htw
    subst hout
    have hw : ("WHERE " ++ joinSep "\n  AND "
        (timePred tExpr tr :: (sfPreds ++ plan.intent.filters.map
          (fun ff => "/* user_filter: " ++ replaceStarSlash ff ++ " */"))))
        ∈ parts := by
      rw [hps]
      simp [assembleParts]
    obtain ⟨pre0, post0, hjoin⟩ := joinSep_mem "\n" parts _ hw
    obtain ⟨t2, ht2⟩ := joinSep_cons "\n  AND " (timePred tExpr tr)
      (sfPreds ++ plan.intent.filters.map
        (fun ff => "/* user_filter: " ++ replaceStarSlash ff ++ " */"))
    refine ⟨jp, tExpr, pre0 ++ "WHERE ", t2 ++ post0, hcj, hexp, ?_⟩
    rw [hs, hjoin, ht2]
    apply String.ext
    simp [String.data_append]

/-- Witness for `renderSQL_timeRange_halfopen` on the concrete orders
plan with a January 2024 range. -/
theorem renderSQL_timeRange_halfopen_witness :
    ∃ jp tExpr pre post,
      computeJoinPath "orders" (dedupFirst ["orders"]) ordersRegistry
          = .ok jp ∧
      expandSqlExpression 10 (renderCtx "orders" jp ordersRegistry) []
          "{CUBE}.created_on" = .ok tExpr ∧
      ("SELECT\n  1 AS dummy\nFROM dwh.analytics.orders t0\n"
        ++ "WHERE t0.created_on >= '2024-01-01' AND t0.created_on < '2024-02-01'\n"
        ++ "LIMIT 1001")
        = pre ++ timePred tExpr { start := "2024-01-01", stop := "2024-02-01" }
            ++ post :=
  renderSQL_timeRange_halfopen 10
    { intent := { timeRange := some { start := "2024-01-01",
                                      stop := "2024-02-01" } },
      selectedEntities := ["orders"] }
    ordersRegistry _ "orders" [] ordersEntity
    { name := "created_on", sql := "{CUBE}.created_on" } []
    { start := "2024-01-01", stop := "2024-02-01" }
    rfl rfl rfl rfl rfl

/-! ### C10: `buildPredicate` and the values list -/

theorem unsupported_ne_arity (a b : String) :
    ("Unsupported operator: " ++ a)
      ≠ ("Operator " ++ b ++ " expects a single value.") := by
  intro h
  have hd := congrArg String.data h
  rw [String.data_append, String.data_append, String.data_append] at hd
  have h1 : ("Unsupported operator: " : String).data
      = 'U' :: ("nsupported operator: " : String).data := rfl
  have h2 : ("Operator " : String).data
      = 'O' :: ("perator " : String).data := rfl
  rw [h1, h2] at hd
  simp only [List.cons_append, List.append_assoc] at hd
  exact absurd (List.cons.inj hd).1 (by decide)

/-- C10: once the filter's field expands, `in`/`not_in` never raise on the
values list — an empty list renders as `IN ()` — and the
exactly-one-value arity error can only arise for an operator that is
neither `in` nor `not_in` with a values list whose length is not 1. -/
theorem buildPredicate_values_policy (fuel : Nat) (f : MetricFilter)
    (ctx : MacroContext) (e : String)
    (hok : expandSqlExpression fuel ctx [] ("\x7b" ++ f.field ++ "\x7d") = .ok e) :
    ((f.operator = "in" ∨ f.operator = "not_in") →
      buildPredicate fuel f ctx =
        .ok (e ++ (if f.operator = "in" then " IN (" else " NOT IN (")
          ++ joinSep ", " (f.values.map asSqlLiteral) ++ ")")) ∧
    (f.operator = "in" → f.values = [] →
      buildPredicate fuel f ctx = .ok (e ++ " IN ()")) ∧
    (buildPredicate fuel f ctx =
        .error (.msg ("Operator " ++ f.operator
          ++ " expects a single value.")) →
      ¬ f.operator = "in" ∧ ¬ f.operator = "not_in"
        ∧ ¬ f.values.length = 1) := by
  unfold buildPredicate
  rw [hok]
  dsimp only
  refine ⟨?_, ?_, ?_⟩
  · intro hop
    rw [if_pos hop]
  · intro hin hvals
    rw [if_pos (Or.inl hin), hin, hvals]
    simp only [List.map_nil, if_true]
    have hjs : (joinSep ", " [] : String) = "" := rfl
    rw [hjs]
    have hlit : e ++ " IN (" ++ "" ++ ")" = e ++ " IN ()" := by
      apply String.ext
      simp [String.data_append]
    rw [hlit]
  · intro herr
    by_cases hop : f.operator = "in" ∨ f.operator = "not_in"
    · rw [if_pos hop] at herr
      cases herr
    · rw [if_neg hop] at herr
      obtain ⟨hnin, hnnot⟩ := not_or.mp hop
      refine ⟨hnin, hnnot, ?_⟩
      by_cases hlen : ¬ f.values.length = 1
      · exact hlen
      · rw [if_neg hlen] at herr
        by_cases hsc : (f.operator = "=" ∨ f.operator = "!="
            ∨ f.operator = ">" ∨ f.operator = ">="
            ∨ f.operator = "<" ∨ f.operator = "<=")
        · rw [if_pos hsc] at herr
          cases herr
        · rw [if_neg hsc] at herr
          have hmsg := MErr.msg.inj (Except.error.inj herr)
          exact absurd hmsg (unsupported_ne_arity _ _)

/-- The in-filter and context of the C10 witness. -/
def inFilterCex : MetricFilter :=
  { field := "account_tier", operator := "in", values := [] }

def cexCtx : MacroContext :=
  { currentEntity := "orders", aliasByEntity := [("orders", "t0")],
    registry := ordersRegistry }

/-- Witness for `buildPredicate_values_policy`: the empty `in` filter
renders as `IN ()` without raising. -/
theorem buildPredicate_values_policy_witness :
    buildPredicate 10 inFilterCex cexCtx = .ok "t0.ACCOUNT_TIER IN ()" := by
  have h := (buildPredicate_values_policy 10 inFilterCex cexCtx
    "t0.ACCOUNT_TIER" rfl).2.1 rfl rfl
  exact h

/-! ## `src/lib/semantic/io.ts`: entity loading and validation (C8)

File I/O, YAML parsing and the zod schema are one oracle each
(`readFile` by entity name, `parseEntity` from raw text; `none` models a
read failure resp. a parse/schema failure).  The entity cache stores
`{yaml, entity}` pairs keyed by name. -/

structure IoWorld where
  readFile : String → Option String
  parseEntity : String → Option EntityYamlRaw

abbrev Cache8 : Type := List (String × (String × EntityJson))

/-- `addAliases` inside `buildAliasIndexes`. -/
def addAliases
    (idx : List (String × List String) × List (String × String))
    (canonical : String) (aliases : List String) :
    List (String × List String) × List (String × String) :=
  match aliases with
  | [] => idx
  | _ =>
      let prev := (aget idx.1 canonical).getD []
      (jsSet idx.1 canonical (prev ++ aliases),
        aliases.foldl (fun m a => jsSet m a canonical) idx.2)

/-- `buildAliasIndexes` from `io.ts`: entity-level aliases, then dimension
aliases, then metric aliases.  (Measure aliases are read through an `any`
cast but the zod schema strips unknown keys, so they are always absent.) -/
def buildAliasIndexes (entity : EntityYamlRaw) :
    List (String × List String) × List (String × String) :=
  let init := entity.aliasesEnt.foldl
    (fun (idx : List (String × List String) × List (String × String)) p =>
      (jsSet idx.1 p.1 p.2, p.2.foldl (fun m a => jsSet m a p.1) idx.2))
    ([], [])
  let afterDims := entity.dimensions.foldl
    (fun idx d => addAliases idx d.name d.aliases) init
  entity.metrics.foldl (fun idx m => addAliases idx m.name m.aliases)
    afterDims

/-- `validateJoins` from `io.ts`: every join's local dimension must be
indexed. -/
def validateJoins (entityName : String)
    (dimIndex : List (String × DimensionRaw)) :
    List JoinRaw → Except String Unit
  | [] => .ok ()
  | j :: js =>
      if (aget dimIndex j.join_columns.colFrom).isSome then
        validateJoins entityName dimIndex js
      else
        .error ("Entity \"" ++ entityName ++ "\" join invalid: local dimension \""
          ++ j.join_columns.colFrom ++ "\" not found.")

/-- `validateMetricSources` from `io.ts`: every atomic metric needs a
source whose measure is indexed, whose anchor date is a time dimension,
and whose filters have nonempty fields. -/
def validateMetricSources (entityName : String)
    (measureIndex : List (String × MeasureRaw))
    (timeDimNames : List String) : List MetricRaw → Except String Unit
  | [] => .ok ()
  | met :: rest =>
      if met.type = "atomic" then
        match met.source with
        | none => .error ("Metric \"" ++ met.name ++ "\" in entity \""
            ++ entityName ++ "\" must have a source.")
        | some src =>
            if ¬ (aget measureIndex src.measure).isSome then
              .error ("Metric \"" ++ met.name
                ++ "\" references unknown measure \"" ++ src.measure ++ "\".")
            else if ¬ src.anchor_date ∈ timeDimNames then
              .error ("Metric \"" ++ met.name ++ "\" anchor_date \""
                ++ src.anchor_date ++ "\" not a time_dimension.")
            else
              match (src.filters.getD []).find? (fun fl => fl.field = "") with
              | some _ => .error ("Metric \"" ++ met.name
                  ++ "\" has a filter with empty field name.")
              | none => validateMetricSources entityName measureIndex
                  timeDimNames rest
      else validateMetricSources entityName measureIndex timeDimNames rest

/-- `loadEntityYaml` from `io.ts`: cache hit, file read, parse/schema,
index construction, structural validation, and only then the cache
write. -/
def loadEntityYaml (w : IoWorld) (cache : Cache8) (name : String) :
    Except String (String × EntityJson) × Cache8 :=
  match aget cache name with
  | some ent => (.ok ent, cache)
  | none =>
    match w.readFile name with
    | none => (.error ("Missing entity file at " ++ name ++ ".yml"), cache)
    | some raw =>
      match w.parseEntity raw with
      | none => (.error (name ++ ".yml failed to parse or validate"), cache)
      | some entityRaw =>
        let dimIdx := indexByName DimensionRaw.name entityRaw.dimensions
        let measureIdx := indexByName MeasureRaw.name entityRaw.measures
        let metricIdx := indexByName MetricRaw.name entityRaw.metrics
        let aliasIdxs := buildAliasIndexes entityRaw
        match validateJoins entityRaw.name dimIdx entityRaw.joins with
        | .error e => (.error e, cache)
        | .ok _ =>
          match validateMetricSources entityRaw.name measureIdx
              (entityRaw.time_dimensions.map (fun t => t.name))
              entityRaw.metrics with
          | .error e => (.error e, cache)
          | .ok _ =>
            let entity : EntityJson :=
              { name := entityRaw.name, table := entityRaw.table,
                grain := entityRaw.grain,
                dimensions := entityRaw.dimensions,
                time_dimensions := entityRaw.time_dimensions,
                measures := entityRaw.measures,
                metrics := entityRaw.metrics,
                joins := entityRaw.joins,
                common_filters := entityRaw.common_filters,
                dimIndex := dimIdx, measureIndex := measureIdx,
                metricIndex := metricIdx, aliasIndex := aliasIdxs.1,
                reverseAliasIndex := aliasIdxs.2 }
            (.ok (raw, entity), jsSet cache name (raw, entity))

/-- The validity notion of claim C8: every join's local field is a
declared dimension, and every atomic metric has a source whose measure
exists on the entity and whose anchor date is one of the entity's time
dimensions. -/
def ValidEntity (e : EntityJson) : Prop :=
  (∀ j ∈ e.joins, ∃ d ∈ e.dimensions, d.name = j.join_columns.colFrom) ∧
  (∀ m ∈ e.metrics, m.type = "atomic" →
    ∃ src, m.source = some src ∧
      (∃ ms ∈ e.measures, ms.name = src.measure) ∧
      (∃ td ∈ e.time_dimensions, td.name = src.anchor_date))

theorem indexByName_eq {α : Type} (nm : α → String) :
    ∀ l : List α, indexByName nm l = (l.map (fun x => (nm x, x))).reverse := by
  have haux : ∀ (l : List α) (acc : List (String × α)),
      l.foldl (fun m x => (nm x, x) :: m) acc
        = (l.map (fun x => (nm x, x))).reverse ++ acc := by
    intro l
    induction l with
    | nil => intro acc; simp
    | cons x xs ih => intro acc; simp [ih]
  intro l
  have := haux l []
  simpa [indexByName] using this

theorem aget_indexByName_isSome {α : Type} (nm : α → String) (l : List α)
    (k : String) (h : (aget (indexByName nm l) k).isSome = true) :
    ∃ x ∈ l, nm x = k := by
  rw [indexByName_eq] at h
  unfold aget at h
  cases hfind : List.find? (fun p => p.1 = k)
      ((l.map (fun x => (nm x, x))).reverse) with
  | none => rw [hfind] at h; simp at h
  | some p =>
    have hp := List.mem_of_find?_eq_some hfind
    have hpk := List.find?_some hfind
    rw [List.mem_reverse] at hp
    obtain ⟨x, hx, hxp⟩ := List.mem_map.mp hp
    refine ⟨x, hx, ?_⟩
    rw [← hxp] at hpk
    simpa using hpk

theorem validateJoins_sound (entityName : String)
    (dimIndex : List (String × DimensionRaw)) :
    ∀ joins, validateJoins entityName dimIndex joins = .ok () →
      ∀ j ∈ joins, (aget dimIndex j.join_columns.colFrom).isSome = true := by
  intro joins
  induction joins with
  | nil => intro _ j hj; exact absurd hj (List.not_mem_nil j)
  | cons j0 js ih =>
    intro h j hj
    unfold validateJoins at h
    by_cases hc : (aget dimIndex j0.join_columns.colFrom).isSome = true
    · rw [if_pos hc] at h
      rcases List.mem_cons.mp hj with rfl | hj2
      · exact hc
      · exact ih h j hj2
    · rw [if_neg hc] at h
      cases h

theorem validateMetricSources_sound (entityName : String)
    (measureIndex : List (String × MeasureRaw)) (timeDimNames : List String) :
    ∀ metrics,
      validateMetricSources entityName measureIndex timeDimNames metrics
        = .ok () →
      ∀ m ∈ metrics, m.type = "atomic" →
        ∃ src, m.source = some src ∧
          (aget measureIndex src.measure).isSome = true ∧
          src.anchor_date ∈ timeDimNames := by
  intro metrics
  induction metrics with
  | nil => intro _ m hm; exact absurd hm (List.not_mem_nil m)
  | cons m0 ms ih =>
    intro h m hm hat
    unfold validateMetricSources at h
    by_cases h0 : m0.type = "atomic"
    · rw [if_pos h0] at h
      cases hsrc : m0.source with
      | none => rw [hsrc] at h; cases h
      | some src0 =>
        rw [hsrc] at h
        dsimp only at h
        by_cases hms : (aget measureIndex src0.measure).isSome = true
        · rw [if_neg (not_not_intro hms)] at h
          by_cases had : src0.anchor_date ∈ timeDimNames
          · rw [if_neg (not_not_intro had)] at h
            cases hfind : (src0.filters.getD []).find? (fun fl => fl.field = "") with
            | some f => rw [hfind] at h; cases h
            | none =>
                rw [hfind] at h
                rcases List.mem_cons.mp hm with rfl | hm2
                · exact ⟨src0, hsrc, hms, had⟩
                · exact ih h m hm2 hat
          · rw [if_pos had] at h
            cases h
        · rw [if_pos hms] at h
          cases h
    · rw [if_neg h0] at h
      rcases List.mem_cons.mp hm with rfl | hm2
      · exact absurd hat h0
      · exact ih h m hm2 hat

/-- C8: `loadEntityYaml` either returns a fully validated entity — every
join's local field a declared dimension, every atomic metric's measure
present with its anchor date among the time dimensions — or fails, and on
every failure path the entity cache is unchanged; assuming the incoming
cache holds only validated entities, so does the outgoing one. -/
theorem loadEntityYaml_validated (w : IoWorld) (cache : Cache8)
    (name : String) (hcache : ∀ p ∈ cache, ValidEntity p.2.2) :
    (∀ y e cache2, loadEntityYaml w cache name = (.ok (y, e), cache2) →
      ValidEntity e ∧ ∀ p ∈ cache2, ValidEntity p.2.2) ∧
    (∀ msg cache2, loadEntityYaml w cache name = (.error msg, cache2) →
      cache2 = cache) := by
  constructor
  · intro y e cache2 h
    unfold loadEntityYaml at h
    cases hhit : aget cache name with
    | some ent =>
      rw [hhit] at h
      simp only [Prod.mk.injEq] at h
      obtain ⟨h1, h2⟩ := h
      have he : ent = (y, e) := Except.ok.inj h1
      unfold aget at hhit
      cases hfind : cache.find? (fun p => p.1 = name) with
      | none => rw [hfind] at hhit; simp at hhit
      | some p =>
        rw [hfind] at hhit
        have hpm := List.mem_of_find?_eq_some hfind
        have hp2 : p.2 = ent := by simpa using hhit
        refine ⟨?_, ?_⟩
        · have hv := hcache p hpm
          rw [hp2, he] at hv
          exact hv
        · intro q hq
          rw [← h2] at hq
          exact hcache q hq
    | none =>
      rw [hhit] at h
      dsimp only at h
      cases hread : w.readFile name with
      | none =>
        rw [hread] at h
        exact absurd (congrArg Prod.fst h) (by simp)
      | some raw =>
        rw [hread] at h
        dsimp only at h
        cases hparse : w.parseEntity raw with
        | none =>
          rw [hparse] at h
          exact absurd (congrArg Prod.fst h) (by simp)
        | some entityRaw =>
          rw [hparse] at h
          dsimp only at h
          cases hvj : validateJoins entityRaw.name
              (indexByName DimensionRaw.name entityRaw.dimensions)
              entityRaw.joins with
          | error e2 =>
            rw [hvj] at h; exact absurd (congrArg Prod.fst h) (by simp)
          | ok u =>
            cases u
            rw [hvj] at h
            dsimp only at h
            cases hvm : validateMetricSources entityRaw.name
                (indexByName MeasureRaw.name entityRaw.measures)
                (entityRaw.time_dimensions.map (fun t => t.name))
                entityRaw.metrics with
            | error e2 =>
              rw [hvm] at h; exact absurd (congrArg Prod.fst h) (by simp)
            | ok u2 =>
              cases u2
              rw [hvm] at h
              simp only [Prod.mk.injEq] at h
              obtain ⟨h1, h2⟩ := h
              have hye := Except.ok.inj h1
              have hVE : ValidEntity
                  { name := entityRaw.name, table := entityRaw.table,
                    grain := entityRaw.grain,
                    dimensions := entityRaw.dimensions,
                    time_dimensions := entityRaw.time_dimensions,
                    measures := entityRaw.measures,
                    metrics := entityRaw.metrics,
                    joins := entityRaw.joins,
                    common_filters := entityRaw.common_filters,
                    dimIndex := indexByName DimensionRaw.name
                      entityRaw.dimensions,
                    measureIndex := indexByName MeasureRaw.name
                      entityRaw.measures,
                    metricIndex := indexByName MetricRaw.name
                      entityRaw.metrics,
                    aliasIndex := (buildAliasIndexes entityRaw).1,
                    reverseAliasIndex := (buildAliasIndexes entityRaw).2 } := by
                constructor
                · intro j hj
                  exact aget_indexByName_isSome DimensionRaw.name
                    entityRaw.dimensions _
                    (validateJoins_sound _ _ _ hvj j hj)
                · intro m hm hat
                  obtain ⟨src, hsrc, hms, had⟩ :=
                    validateMetricSources_sound _ _ _ _ hvm m hm hat
                  obtain ⟨msr, hmsr, hmsrn⟩ :=
                    aget_indexByName_isSome MeasureRaw.name
                      entityRaw.measures _ hms
                  obtain ⟨td, htd, htdn⟩ := List.mem_map.mp had
                  exact ⟨src, hsrc, ⟨msr, hmsr, hmsrn⟩, ⟨td, htd, htdn⟩⟩
              have hee : e = _ := ((Prod.mk.inj hye).2).symm
              refine ⟨?_, ?_⟩
              · rw [hee]; exact hVE
              · intro q hq
                rw [← h2] at hq
                have hfs : (cache.find? (fun p => p.1 = name)).isSome
                    = false := by
                  unfold aget at hhit
                  cases hf : cache.find? (fun p => p.1 = name) with
                  | none => rfl
                  | some p => rw [hf] at hhit; simp at hhit
                unfold jsSet at hq
                rw [hfs] at hq
                simp only [Bool.false_eq_true, if_false] at hq
                rcases List.mem_append.mp hq with hq1 | hq2
                · exact hcache q hq1
                · rw [List.mem_singleton] at hq2
                  rw [hq2]
                  exact hVE
  · intro msg cache2 h
    unfold loadEntityYaml at h
    repeat' (first | split at h | dsimp only at h)
    all_goals
      first
        | exact (congrArg Prod.snd h).symm
        | exact absurd (congrArg Prod.fst h) (by simp)

/-- The parsed entity of the C8 witness: one dimension, one time
dimension, a count measure, an atomic metric anchored on the time
dimension, and a join whose local field is the declared dimension. -/
def cex8Raw : EntityYamlRaw :=
  { name := "accounts", table := "dwh.analytics.accounts",
    grain := "account",
    dimensions :=
      [{ name := "account_id", sql := "{CUBE}.ACCOUNT_ID",
         type := "string" }],
    time_dimensions := [{ name := "created_on", sql := "{CUBE}.created_on" }],
    measures := [{ name := "account_count", type := .count }],
    metrics :=
      [{ name := "total_accounts", type := "atomic",
         source := some { measure := "account_count",
                          anchor_date := "created_on" } }],
    joins :=
      [{ target_entity := "orders", relationship := .one_to_many,
         join_columns := { colFrom := "account_id", colTo := "account_id" } }] }

def cex8World : IoWorld :=
  { readFile := fun n => if n = "accounts" then some "yaml-accounts" else none,
    parseEntity := fun r => if r = "yaml-accounts" then some cex8Raw
      else none }

/-- The entity that `loadEntityYaml` builds for `cex8Raw`. -/
def cex8Entity : EntityJson :=
  { name := cex8Raw.name, table := cex8Raw.table, grain := cex8Raw.grain,
    dimensions := cex8Raw.dimensions,
    time_dimensions := cex8Raw.time_dimensions,
    measures := cex8Raw.measures, metrics := cex8Raw.metrics,
    joins := cex8Raw.joins, common_filters := cex8Raw.common_filters,
    dimIndex := indexByName DimensionRaw.name cex8Raw.dimensions,
    measureIndex := indexByName MeasureRaw.name cex8Raw.measures,
    metricIndex := indexByName MetricRaw.name cex8Raw.metrics,
    aliasIndex := (buildAliasIndexes cex8Raw).1,
    reverseAliasIndex := (buildAliasIndexes cex8Raw).2 }

/-- Witness for `loadEntityYaml_validated`: loading `accounts` into an
empty cache succeeds with a validated entity and a validated cache. -/
theorem loadEntityYaml_validated_witness :
    ValidEntity cex8Entity ∧
      ∀ p ∈ [("accounts", ("yaml-accounts", cex8Entity))],
        ValidEntity p.2.2 :=
  (loadEntityYaml_validated cex8World [] "accounts" (by simp)).1
    "yaml-accounts" cex8Entity
    [("accounts", ("yaml-accounts", cex8Entity))] rfl

end D0
